import Mathlib

/-!
# csp::Sync — a value guarded by a readers-writer lock (`Sync.h`)

The development embeds `csp::Sync<T>` and its two handle classes.

* `Mutex`, `ReadLock`, `WriteLock` stand for `std::shared_mutex`,
  `std::shared_lock<Mutex>` and `std::unique_lock<Mutex>`; these come from the
  C++ standard library, not from `Sync.h`, and are modelled by their abstract
  state (reader count and writer flag; the `pm` pointer and the `owns` flag).
* A blocking acquisition that can never be granted in the current lock state is
  the result `none`.
* A callback is a function of the caller's environment `Env` (whatever the
  closure captured) and of the payload it is pointed at; it may fail with an
  exception of type `ε`.
-/

namespace csp

/-! ## The platform lock -/

/-- Modelled from the spec: `std::shared_mutex` (header `<shared_mutex>`, not part of
`Sync.h`). Its abstract state is the number of shared acquisitions currently held and
whether an exclusive acquisition is held. -/
structure Mutex where
  readers : Nat
  writer : Bool
deriving DecidableEq, Repr

namespace Mutex

/-- A freshly constructed `std::shared_mutex`: unlocked. -/
def init : Mutex := { readers := 0, writer := false }

/-- Modelled from the spec: `std::shared_mutex::lock_shared()`. It is granted when no
exclusive acquisition is held ("no other thread currently holds an exclusive
acquisition"); otherwise the caller blocks. -/
def lock_shared (m : Mutex) : Option Mutex :=
  if m.writer then none else some { m with readers := m.readers + 1 }

/-- Modelled from the spec: `std::shared_mutex::lock()`. It is granted when no shared
and no exclusive acquisition is held; otherwise the caller blocks. -/
def lock (m : Mutex) : Option Mutex :=
  if m.writer || m.readers != 0 then none else some { m with writer := true }

/-- Modelled from the spec: `std::shared_mutex::unlock_shared()`. -/
def unlock_shared (m : Mutex) : Mutex := { m with readers := m.readers - 1 }

/-- Modelled from the spec: `std::shared_mutex::unlock()`. -/
def unlock (m : Mutex) : Mutex := { m with writer := false }

end Mutex

/-- Modelled from the spec: `std::shared_lock<Mutex>` (`using ReadLock`). `pm` tells
whether the lock object still refers to the container's mutex (it is null after the
object has been moved from), `owns` whether it holds a shared acquisition. -/
structure ReadLock where
  pm : Bool
  owns : Bool
deriving DecidableEq, Repr

namespace ReadLock

/-- The constructor `ReadLock{ mutex }`: calls `mutex.lock_shared()` and owns the result. -/
def new (mutex : Mutex) : Option (Mutex × ReadLock) :=
  match mutex.lock_shared with
  | none => none
  | some m => some (m, { pm := true, owns := true })

/-- The destructor: `if (owns) pm->unlock_shared();`. -/
def destroy (l : ReadLock) (mutex : Mutex) : Mutex :=
  if l.owns then mutex.unlock_shared else mutex

/-- The move constructor: the new object takes `pm` and `owns`; the source is left with
no mutex and no ownership. Returns (source after the move, destination). -/
def move (l : ReadLock) : ReadLock × ReadLock :=
  ({ pm := false, owns := false }, { pm := l.pm, owns := l.owns })

end ReadLock

/-- Modelled from the spec: `std::unique_lock<Mutex>` (`using WriteLock`), with the same
two fields as `ReadLock`; `owns` now means an exclusive acquisition. -/
structure WriteLock where
  pm : Bool
  owns : Bool
deriving DecidableEq, Repr

namespace WriteLock

/-- The constructor `WriteLock{ mutex }`: calls `mutex.lock()` and owns the result. -/
def new (mutex : Mutex) : Option (Mutex × WriteLock) :=
  match mutex.lock with
  | none => none
  | some m => some (m, { pm := true, owns := true })

/-- The destructor: `if (owns) pm->unlock();`. -/
def destroy (l : WriteLock) (mutex : Mutex) : Mutex :=
  if l.owns then mutex.unlock else mutex

/-- The move constructor. Returns (source after the move, destination). -/
def move (l : WriteLock) : WriteLock × WriteLock :=
  ({ pm := false, owns := false }, { pm := l.pm, owns := l.owns })

end WriteLock

/-! ## The container -/

/-- The class `Sync<T>`: `mutable Mutex mutex_; T data_;`. -/
structure Sync (T : Type) where
  mutex_ : Mutex
  data_ : T

/-- A pointer of type `T*` / `T const*` as the class uses it: the only address ever
taken is `&data_` of the container. -/
inductive Ptr where
  | null
  | payload
deriving DecidableEq, Repr

/-- Reading through a pointer: `*ptr`. -/
def Ptr.read {T : Type} (p : Ptr) (s : Sync T) : Option T :=
  match p with
  | Ptr.null => none
  | Ptr.payload => some s.data_

/-- Writing through a pointer: `*ptr = v`. -/
def Ptr.write {T : Type} (p : Ptr) (s : Sync T) (v : T) : Option (Sync T) :=
  match p with
  | Ptr.null => none
  | Ptr.payload => some { s with data_ := v }

/-- The class `ReadPtr`: `ReadLock lock_; T const* const data_;`. -/
structure ReadPtr where
  lock_ : ReadLock
  data_ : Ptr
deriving DecidableEq, Repr

/-- The class `WritePtr`: `WriteLock lock_; T* const data_;`. -/
structure WritePtr where
  lock_ : WriteLock
  data_ : Ptr
deriving DecidableEq, Repr

namespace ReadPtr

/-- The constructor `ReadPtr(Mutex& mutex, T const* const data) : lock_{ mutex }, data_{ data }`. -/
def new (mutex : Mutex) (data : Ptr) : Option (Mutex × ReadPtr) :=
  match ReadLock.new mutex with
  | none => none
  | some (m, l) => some (m, { lock_ := l, data_ := data })

/-- The member `operator*() const`: `return *data_;`. The lock is not consulted. -/
def deref {T : Type} (h : ReadPtr) (s : Sync T) : Option T :=
  h.data_.read s

/-- The implicit destructor: destroys the member `lock_`. -/
def destroy (h : ReadPtr) (mutex : Mutex) : Mutex :=
  h.lock_.destroy mutex

/-- The implicit move constructor: `lock_` is move-constructed, the const pointer
`data_` is copied (the source keeps its value). Returns (source after the move,
destination). -/
def move (h : ReadPtr) : ReadPtr × ReadPtr :=
  ({ lock_ := h.lock_.move.1, data_ := h.data_ }, { lock_ := h.lock_.move.2, data_ := h.data_ })

end ReadPtr

namespace WritePtr

/-- The constructor `WritePtr(Mutex& mutex, T* const data) : lock_{ mutex }, data_{ data }`. -/
def new (mutex : Mutex) (data : Ptr) : Option (Mutex × WritePtr) :=
  match WriteLock.new mutex with
  | none => none
  | some (m, l) => some (m, { lock_ := l, data_ := data })

/-- The member `operator*() const`, used to read: `return *data_;`. -/
def deref {T : Type} (h : WritePtr) (s : Sync T) : Option T :=
  h.data_.read s

/-- The member `operator*() const`, used to assign through the returned `T&`. -/
def assign {T : Type} (h : WritePtr) (s : Sync T) (v : T) : Option (Sync T) :=
  h.data_.write s v

/-- The implicit destructor: destroys the member `lock_`. -/
def destroy (h : WritePtr) (mutex : Mutex) : Mutex :=
  h.lock_.destroy mutex

/-- The implicit move constructor. Returns (source after the move, destination). -/
def move (h : WritePtr) : WritePtr × WritePtr :=
  ({ lock_ := h.lock_.move.1, data_ := h.data_ }, { lock_ := h.lock_.move.2, data_ := h.data_ })

end WritePtr

namespace Sync

variable {T Env ε R : Type}

/-- The constructor `Sync(Args&& ... args) : data_{ std::forward<Args>(args)... }`; the
mutex is default-constructed, hence unlocked. -/
def construct (v : T) : Sync T := { mutex_ := Mutex.init, data_ := v }

/-- The member `rlock() const`: `return ReadPtr<T>(mutex_, &data_);`. -/
def rlock (s : Sync T) : Option (Sync T × ReadPtr) :=
  match ReadPtr.new s.mutex_ Ptr.payload with
  | none => none
  | some (m, h) => some ({ s with mutex_ := m }, h)

/-- The member `wlock()`: `return WritePtr<T>(mutex_, &data_);`. -/
def wlock (s : Sync T) : Option (Sync T × WritePtr) :=
  match WritePtr.new s.mutex_ Ptr.payload with
  | none => none
  | some (m, h) => some ({ s with mutex_ := m }, h)

/-- A `ReadPtr` goes out of scope: its destructor runs against the container's mutex. -/
def dropRead (s : Sync T) (h : ReadPtr) : Sync T :=
  { s with mutex_ := h.destroy s.mutex_ }

/-- A `WritePtr` goes out of scope: its destructor runs against the container's mutex. -/
def dropWrite (s : Sync T) (h : WritePtr) : Sync T :=
  { s with mutex_ := h.destroy s.mutex_ }

/-- The member `with_rlock(Callable&& f)`:
`auto lock = ReadLock{ mutex_ }; auto const* const ptr = &data_; return f(ptr);`.
The local `lock` is destroyed when the function is left, by `return` or by the
unwinding of an exception thrown by `f`. -/
def with_rlock (s : Sync T) (f : Env → T → Env × Except ε R) (env : Env) :
    Option (Sync T × Env × Except ε R) :=
  match ReadLock.new s.mutex_ with
  | none => none
  | some (m, lock) =>
    let s1 : Sync T := { s with mutex_ := m }
    let ptr := Ptr.payload
    match ptr.read s1 with
    | none => none
    | some v =>
      match f env v with
      | (env1, Except.ok r) => some ({ s1 with mutex_ := lock.destroy s1.mutex_ }, env1, Except.ok r)
      | (env1, Except.error e) =>
        some ({ s1 with mutex_ := lock.destroy s1.mutex_ }, env1, Except.error e)

/-- The member `with_wlock(Callable&& f)`:
`auto lock = WriteLock{ mutex_ }; auto* const ptr = &data_; return f(ptr);`.
The callback may assign through `ptr`; the payload it leaves behind is the second
component of its result, also when it fails. -/
def with_wlock (s : Sync T) (f : Env → T → Env × T × Except ε R) (env : Env) :
    Option (Sync T × Env × Except ε R) :=
  match WriteLock.new s.mutex_ with
  | none => none
  | some (m, lock) =>
    let s1 : Sync T := { s with mutex_ := m }
    let ptr := Ptr.payload
    match ptr.read s1 with
    | none => none
    | some v =>
      match f env v with
      | (env1, v1, Except.ok r) =>
        match ptr.write s1 v1 with
        | none => none
        | some s2 => some ({ s2 with mutex_ := lock.destroy s2.mutex_ }, env1, Except.ok r)
      | (env1, v1, Except.error e) =>
        match ptr.write s1 v1 with
        | none => none
        | some s2 => some ({ s2 with mutex_ := lock.destroy s2.mutex_ }, env1, Except.error e)

/-- The member `copy()`: `auto lock = ReadLock{ mutex_ }; return data_;`. The returned
`T` is copy-constructed from `data_` before `lock` is destroyed. -/
def copy (s : Sync T) : Option (Sync T × T) :=
  match ReadLock.new s.mutex_ with
  | none => none
  | some (m, lock) =>
    let s1 : Sync T := { s with mutex_ := m }
    let c := s1.data_
    some ({ s1 with mutex_ := lock.destroy s1.mutex_ }, c)

/-- The handle idiom for a read, as a caller would write it:
`{ auto h = s.rlock(); return f(&*h); }` — acquire a `ReadPtr`, apply the callback to
the payload the handle dereferences to, let the handle go out of scope (on return or on
unwinding). -/
def via_rlock (s : Sync T) (f : Env → T → Env × Except ε R) (env : Env) :
    Option (Sync T × Env × Except ε R) :=
  match s.rlock with
  | none => none
  | some (s1, h) =>
    match h.deref s1 with
    | none => none
    | some v =>
      match f env v with
      | (env1, r) => some (s1.dropRead h, env1, r)

/-- The handle idiom for a write, as a caller would write it:
`{ auto h = s.wlock(); return f(&*h); }` — acquire a `WritePtr`, apply the callback to
the payload the handle dereferences to (assigning through the handle), let the handle go
out of scope. -/
def via_wlock (s : Sync T) (f : Env → T → Env × T × Except ε R) (env : Env) :
    Option (Sync T × Env × Except ε R) :=
  match s.wlock with
  | none => none
  | some (s1, h) =>
    match h.deref s1 with
    | none => none
    | some v =>
      match f env v with
      | (env1, v1, r) =>
        match h.assign s1 v1 with
        | none => none
        | some s2 => some (s2.dropWrite h, env1, r)

/-- The callback that returns a copy of the payload: `[](auto const* p){ return *p; }`. -/
def copyCallback (u : Unit) (p : T) : Unit × Except Empty T := (u, Except.ok p)

end Sync

/-- The callback of the example: `[](auto* p){ *p += 10; return *p; }`. -/
def addTen (_ : Unit) (p : Int) : Unit × Int × Except Empty Int :=
  ((), p + 10, Except.ok (p + 10))

/-- The callback of the example: `[](auto* p){ p->push_back(4); }`. -/
def pushBack4 (_ : Unit) (p : List Nat) : Unit × List Nat × Except Empty Unit :=
  ((), p ++ [4], Except.ok ())

/-- A write callback that stores 1 and then throws: `[](auto* p){ *p = 1; throw 42; }`. -/
def storeThenThrow (_ : Unit) (_ : Nat) : Unit × Nat × Except Nat Unit :=
  ((), 1, Except.error 42)

/-- A read callback that throws: `[](auto const*){ throw 42; }`. -/
def readThenThrow (_ : Unit) (_ : Nat) : Unit × Except Nat Unit :=
  ((), Except.error 42)

/-! ## Interleavings

Threads interleave at the granularity of the lock operations. The state of the whole
program, as far as one container is concerned, is the container together with every
object that can hold an acquisition of its mutex: the handles handed out by
`rlock()` / `wlock()` (and the handles they were moved into), and the activations of
`with_rlock`, `with_wlock` and `copy` that have acquired their local `lock` and have
not yet returned. Objects are numbered in order of creation; the slot of an object
that has left scope is empty from then on. -/

/-- An object that refers to the container. -/
inductive Obj where
  | readPtr (h : ReadPtr)
  | writePtr (h : WritePtr)
  | rframe (lock : ReadLock) (ptr : Ptr)
  | wframe (lock : WriteLock) (ptr : Ptr)
  | cframe (lock : ReadLock)
deriving DecidableEq, Repr

namespace Obj

/-- Number of shared acquisitions the object holds (0 or 1). -/
def shared : Obj → Nat
  | readPtr h => if h.lock_.owns then 1 else 0
  | rframe l _ => if l.owns then 1 else 0
  | cframe l => if l.owns then 1 else 0
  | writePtr _ => 0
  | wframe _ _ => 0

/-- Number of exclusive acquisitions the object holds (0 or 1). -/
def exclusive : Obj → Nat
  | writePtr h => if h.lock_.owns then 1 else 0
  | wframe l _ => if l.owns then 1 else 0
  | readPtr _ => 0
  | rframe _ _ => 0
  | cframe _ => 0

/-- Number of acquisitions of either class the object holds. -/
def held (o : Obj) : Nat := o.shared + o.exclusive

/-- The object has not been moved from: its lock member still refers to the mutex. -/
def engaged : Obj → Bool
  | readPtr h => h.lock_.pm
  | writePtr h => h.lock_.pm
  | rframe l _ => l.pm
  | wframe l _ => l.pm
  | cframe l => l.pm

/-- The object holds an acquisition of the class that matches its kind: shared for a
`ReadPtr` and for the activations of `with_rlock` and `copy`, exclusive for a
`WritePtr` and for the activation of `with_wlock`. -/
def backed : Obj → Bool
  | readPtr h => h.lock_.owns
  | writePtr h => h.lock_.owns
  | rframe l _ => l.owns
  | wframe l _ => l.owns
  | cframe l => l.owns

/-- The pointer the object carries (`data_` of a handle, the local `ptr` of an
activation; `copy()` names `data_` directly). -/
def ptr : Obj → Ptr
  | readPtr h => h.data_
  | writePtr h => h.data_
  | rframe _ p => p
  | wframe _ p => p
  | cframe _ => Ptr.payload

/-- Well-formedness of an object: its lock member owns an acquisition exactly when it
still refers to the mutex, and its pointer is `&data_`. -/
def wf (o : Obj) : Bool := (o.engaged == o.backed) && (o.ptr == Ptr.payload)

/-- The object leaves scope (a handle is destroyed, an activation returns or is unwound):
the destructor of its lock member runs. -/
def destroy : Obj → Mutex → Mutex
  | readPtr h, m => h.destroy m
  | writePtr h, m => h.destroy m
  | rframe l _, m => l.destroy m
  | wframe l _, m => l.destroy m
  | cframe l, m => l.destroy m

end Obj

/-- Weight of a slot: an empty slot weighs nothing. -/
def slotWeight (w : Obj → Nat) : Option Obj → Nat
  | none => 0
  | some o => w o

/-- Total weight of the objects in a list of slots. -/
def weight (w : Obj → Nat) : List (Option Obj) → Nat
  | [] => 0
  | o :: os => slotWeight w o + weight w os

/-- The content of slot `i`; a slot that does not exist yet reads as empty. -/
def slot : List (Option Obj) → Nat → Option Obj
  | [], _ => none
  | o :: _, 0 => o
  | _ :: os, n + 1 => slot os n

/-- The container and the objects referring to it. -/
structure Sys (T : Type) where
  sync : Sync T
  objs : List (Option Obj)

/-- One atomic step of some thread. -/
inductive Action (T : Type) where
  | rlock
  | wlock
  | enter_with_rlock
  | enter_with_wlock
  | enter_copy
  | move (i : Nat)
  | assign (i : Nat) (v : T)
  | leave (i : Nat)

/-- The step moves a handle. -/
def Action.isMove {T : Type} : Action T → Bool
  | Action.move _ => true
  | _ => false

/-- The step ends the tenure of object `i`: it is moved from, or it leaves scope. -/
def Action.ends {T : Type} (i : Nat) : Action T → Bool
  | Action.move j => j == i
  | Action.leave j => j == i
  | _ => false

/-- The handle as `rlock()` constructs it: its lock owns a shared acquisition and its
pointer is `&data_`. -/
def ownedRead : ReadPtr := { lock_ := { pm := true, owns := true }, data_ := Ptr.payload }

/-- The handle as `wlock()` constructs it. -/
def ownedWrite : WritePtr := { lock_ := { pm := true, owns := true }, data_ := Ptr.payload }

/-- A `ReadPtr` that has been moved from: no mutex, no ownership, the pointer unchanged. -/
def movedFromRead : ReadPtr := { lock_ := { pm := false, owns := false }, data_ := Ptr.payload }

/-- A `WritePtr` that has been moved from. -/
def movedFromWrite : WritePtr :=
  { lock_ := { pm := false, owns := false }, data_ := Ptr.payload }

/-- The object is a handle (`ReadPtr` or `WritePtr`), not the activation of a callback
accessor or of `copy()`. -/
def Obj.isHandle : Obj → Bool
  | Obj.readPtr _ => true
  | Obj.writePtr _ => true
  | _ => false

/-- The mark of object `i` in a list of marks; an object without a mark is unmarked. -/
def flag : List Bool → Nat → Bool
  | [], _ => false
  | b :: _, 0 => b
  | _ :: g, n + 1 => flag g n

/-- Bookkeeping of the spent handles, one mark per object in order of creation. A
handle is spent once it has been moved from; a handle move-constructed from a spent
handle is spent from its creation; every other object is created unspent. Writing
through a handle and leaving scope change no mark. -/
def Action.spend {T : Type} (g : List Bool) : Action T → List Bool
  | Action.rlock => g ++ [false]
  | Action.wlock => g ++ [false]
  | Action.enter_with_rlock => g ++ [false]
  | Action.enter_with_wlock => g ++ [false]
  | Action.enter_copy => g ++ [false]
  | Action.move i => g.set i true ++ [flag g i]
  | Action.assign _ _ => g
  | Action.leave _ => g

/-- The marks after a schedule, starting from the marks `g`. -/
def spentFrom {T : Type} (g : List Bool) : List (Action T) → List Bool
  | [] => g
  | a :: as => spentFrom (a.spend g) as

/-- The marks after a schedule run on a freshly constructed container. -/
def spent {T : Type} (as : List (Action T)) : List Bool := spentFrom [] as

/-- What a mark says about the content of its slot: an unspent object holds its
acquisition, a spent one is a handle and holds none. -/
def slotOK (b : Bool) : Option Obj → Prop
  | none => True
  | some o => o.backed = !b ∧ (b = true → o.isHandle = true)

/-- The marks describe the objects, slot by slot. -/
def ghostOK : List Bool → List (Option Obj) → Prop
  | [], [] => True
  | b :: g, o :: os => slotOK b o ∧ ghostOK g os
  | _, _ => False

namespace Sys

variable {T : Type}

/-- The program right after `Sync<T> s(v)`. -/
def init (v : T) : Sys T := { sync := Sync.construct v, objs := [] }

/-- The object in slot `i`, if that slot exists and is not empty. -/
def obj (sys : Sys T) (i : Nat) : Option Obj := slot sys.objs i

/-- Number of shared acquisitions held by live objects. -/
def sharedHeld (sys : Sys T) : Nat := weight Obj.shared sys.objs

/-- Number of exclusive acquisitions held by live objects. -/
def exclusiveHeld (sys : Sys T) : Nat := weight Obj.exclusive sys.objs

/-- The step function; `none` when the step cannot complete in this state (the
acquisition blocks, or there is no such object). -/
def step (sys : Sys T) : Action T → Option (Sys T)
  | Action.rlock =>
    match sys.sync.rlock with
    | none => none
    | some (s, h) => some { sync := s, objs := sys.objs ++ [some (Obj.readPtr h)] }
  | Action.wlock =>
    match sys.sync.wlock with
    | none => none
    | some (s, h) => some { sync := s, objs := sys.objs ++ [some (Obj.writePtr h)] }
  | Action.enter_with_rlock =>
    match ReadLock.new sys.sync.mutex_ with
    | none => none
    | some (m, lock) =>
      some { sync := { sys.sync with mutex_ := m },
             objs := sys.objs ++ [some (Obj.rframe lock Ptr.payload)] }
  | Action.enter_with_wlock =>
    match WriteLock.new sys.sync.mutex_ with
    | none => none
    | some (m, lock) =>
      some { sync := { sys.sync with mutex_ := m },
             objs := sys.objs ++ [some (Obj.wframe lock Ptr.payload)] }
  | Action.enter_copy =>
    match ReadLock.new sys.sync.mutex_ with
    | none => none
    | some (m, lock) =>
      some { sync := { sys.sync with mutex_ := m }, objs := sys.objs ++ [some (Obj.cframe lock)] }
  | Action.move i =>
    match sys.obj i with
    | some (Obj.readPtr h) =>
      some { sys with
             objs := sys.objs.set i (some (Obj.readPtr h.move.1)) ++ [some (Obj.readPtr h.move.2)] }
    | some (Obj.writePtr h) =>
      some { sys with
             objs := sys.objs.set i (some (Obj.writePtr h.move.1)) ++ [some (Obj.writePtr h.move.2)] }
    | _ => none
  | Action.assign i v =>
    match sys.obj i with
    | some (Obj.writePtr h) =>
      match h.assign sys.sync v with
      | none => none
      | some s => some { sys with sync := s }
    | some (Obj.wframe _ ptr) =>
      match ptr.write sys.sync v with
      | none => none
      | some s => some { sys with sync := s }
    | _ => none
  | Action.leave i =>
    match sys.obj i with
    | none => none
    | some o =>
      some { sync := { sys.sync with mutex_ := o.destroy sys.sync.mutex_ },
             objs := sys.objs.set i none }

/-- Run a schedule of steps; `none` as soon as one of them cannot complete. -/
def run (sys : Sys T) : List (Action T) → Option (Sys T)
  | [] => some sys
  | a :: as =>
    match sys.step a with
    | none => none
    | some sys1 => run sys1 as

/-- States reachable from a freshly constructed container. -/
def Reachable (sys : Sys T) : Prop :=
  ∃ (v : T) (as : List (Action T)), (init v).run as = some sys

/-- The accounting invariant: the mutex counts exactly the acquisitions held by live
objects, an exclusive acquisition excludes shared ones, and every live object is
well-formed. -/
def Inv (sys : Sys T) : Prop :=
  sys.sync.mutex_.readers = sys.sharedHeld ∧
  (if sys.sync.mutex_.writer then 1 else 0) = sys.exclusiveHeld ∧
  (sys.sync.mutex_.writer = true → sys.sync.mutex_.readers = 0) ∧
  ∀ o, some o ∈ sys.objs → o.wf = true

end Sys

/-! ## Helper lemmas -/

theorem weight_append_one (w : Obj → Nat) (os : List (Option Obj)) (o : Option Obj) :
    weight w (os ++ [o]) = weight w os + slotWeight w o := by
  induction os with
  | nil => simp [weight]
  | cons x xs ih => simp [weight, ih]; omega

theorem weight_set (w : Obj → Nat) (os : List (Option Obj)) (i : Nat) (o : Obj)
    (x : Option Obj) (h : slot os i = some o) :
    weight w (os.set i x) + w o = weight w os + slotWeight w x := by
  induction os generalizing i with
  | nil => simp [slot] at h
  | cons y ys ih =>
    cases i with
    | zero =>
      simp [slot] at h
      subst h
      simp [weight, slotWeight]; omega
    | succ n =>
      simp [slot] at h
      have := ih n h
      simp [weight]; omega

theorem slot_set_ne (os : List (Option Obj)) (i j : Nat) (x : Option Obj) (h : i ≠ j) :
    slot (os.set j x) i = slot os i := by
  induction os generalizing i j with
  | nil => simp [slot]
  | cons y ys ih =>
    cases j with
    | zero =>
      cases i with
      | zero => exact absurd rfl h
      | succ n => simp [slot]
    | succ m =>
      cases i with
      | zero => simp [slot]
      | succ n => simp [slot]; exact ih n m (by omega)

theorem slot_set_self (os : List (Option Obj)) (i : Nat) (o : Obj) (x : Option Obj)
    (h : slot os i = some o) : slot (os.set i x) i = x := by
  induction os generalizing i with
  | nil => simp [slot] at h
  | cons y ys ih =>
    cases i with
    | zero => simp [slot]
    | succ n => simp [slot] at h; simp [slot]; exact ih n h

theorem slot_append_lt (os : List (Option Obj)) (i : Nat) (x : Option Obj) (o : Obj)
    (h : slot os i = some o) : slot (os ++ [x]) i = some o := by
  induction os generalizing i with
  | nil => simp [slot] at h
  | cons y ys ih =>
    cases i with
    | zero => simpa [slot] using h
    | succ n => simp [slot] at h; simp [slot]; exact ih n h

theorem slot_append_length (os : List (Option Obj)) (x : Option Obj) :
    slot (os ++ [x]) os.length = x := by
  induction os with
  | nil => simp [slot]
  | cons y ys ih => simpa [slot] using ih

theorem slot_mem (os : List (Option Obj)) (i : Nat) (o : Obj)
    (h : slot os i = some o) : some o ∈ os := by
  induction os generalizing i with
  | nil => simp [slot] at h
  | cons y ys ih =>
    cases i with
    | zero => simp [slot] at h; simp [h]
    | succ n => simp [slot] at h; simp [ih n h]

theorem slot_lt_length (os : List (Option Obj)) (i : Nat) (o : Obj)
    (h : slot os i = some o) : i < os.length := by
  induction os generalizing i with
  | nil => simp [slot] at h
  | cons y ys ih =>
    cases i with
    | zero => simp
    | succ n => simp [slot] at h; simp; exact ih n h

theorem weight_replicate (w : Obj → Nat) (n : Nat) (o : Obj) :
    weight w (List.replicate n (some o)) = n * w o := by
  induction n with
  | zero => simp [weight]
  | succ k ih => simp [List.replicate_succ, weight, slotWeight, ih]; ring

theorem weight_held (os : List (Option Obj)) :
    weight Obj.held os = weight Obj.shared os + weight Obj.exclusive os := by
  induction os with
  | nil => simp [weight]
  | cons x xs ih =>
    cases x with
    | none => simp [weight, slotWeight, ih]
    | some o => simp [weight, slotWeight, ih, Obj.held]; omega

theorem slot_replicate (n k : Nat) (x : Option Obj) (h : k < n) :
    slot (List.replicate n x) k = x := by
  induction n generalizing k with
  | zero => omega
  | succ m ih =>
    cases k with
    | zero => simp [List.replicate_succ, slot]
    | succ j => simp [List.replicate_succ, slot]; exact ih j (by omega)

theorem slotWeight_le_weight (w : Obj → Nat) (os : List (Option Obj)) (i : Nat) (o : Obj)
    (h : slot os i = some o) : w o ≤ weight w os := by
  have := weight_set w os i o none h
  simp [slotWeight] at this
  omega

theorem weight_two_le (w : Obj → Nat) (os : List (Option Obj)) (i j : Nat) (a b : Obj)
    (hij : i ≠ j) (ha : slot os i = some a) (hb : slot os j = some b) :
    w a + w b ≤ weight w os := by
  have h1 := weight_set w os i a none ha
  have h2 : slot (os.set i none) j = some b := by
    rw [slot_set_ne os j i none (Ne.symm hij)]; exact hb
  have h3 := slotWeight_le_weight w (os.set i none) j b h2
  simp [slotWeight] at h1
  omega

namespace Sys

variable {T : Type}

theorem inv_init (v : T) : (init v).Inv := by
  simp [Inv, init, Sync.construct, Mutex.init, sharedHeld, exclusiveHeld, weight]

theorem step_inv (sys sys1 : Sys T) (a : Action T) (hinv : sys.Inv)
    (hs : sys.step a = some sys1) : sys1.Inv := by
  obtain ⟨h1, h2, h3, h4⟩ := hinv
  cases a with
  | rlock =>
    cases hw : sys.sync.mutex_.writer with
    | true => simp [step, Sync.rlock, ReadPtr.new, ReadLock.new, Mutex.lock_shared, hw] at hs
    | false =>
      simp [step, Sync.rlock, ReadPtr.new, ReadLock.new, Mutex.lock_shared, hw] at hs
      subst hs
      simp only [hw] at h2
      refine ⟨?_, ?_, ?_, ?_⟩
      · simp [sharedHeld, weight_append_one, slotWeight, Obj.shared]
        simpa [sharedHeld] using h1
      · simp [exclusiveHeld, weight_append_one, slotWeight, Obj.exclusive, hw]
        simpa [exclusiveHeld] using h2
      · simp [hw]
      · intro o ho
        simp at ho
        rcases ho with ho | ho
        · exact h4 o ho
        · subst ho; rfl
  | wlock =>
    cases hw : sys.sync.mutex_.writer with
    | true => simp [step, Sync.wlock, WritePtr.new, WriteLock.new, Mutex.lock, hw] at hs
    | false =>
      by_cases hr : sys.sync.mutex_.readers = 0
      · simp [step, Sync.wlock, WritePtr.new, WriteLock.new, Mutex.lock, hw, hr] at hs
        subst hs
        simp only [hw] at h2
        refine ⟨?_, ?_, ?_, ?_⟩
        · simp [sharedHeld, weight_append_one, slotWeight, Obj.shared]
          simp [sharedHeld] at h1; omega
        · simp [exclusiveHeld, weight_append_one, slotWeight, Obj.exclusive]
          simp [exclusiveHeld] at h2
          omega
        · simp [hr]
        · intro o ho
          simp at ho
          rcases ho with ho | ho
          · exact h4 o ho
          · subst ho; rfl
      · simp [step, Sync.wlock, WritePtr.new, WriteLock.new, Mutex.lock, hw, hr] at hs
  | enter_with_rlock =>
    cases hw : sys.sync.mutex_.writer with
    | true => simp [step, ReadLock.new, Mutex.lock_shared, hw] at hs
    | false =>
      simp [step, ReadLock.new, Mutex.lock_shared, hw] at hs
      subst hs
      simp only [hw] at h2
      refine ⟨?_, ?_, ?_, ?_⟩
      · simp [sharedHeld, weight_append_one, slotWeight, Obj.shared]
        simpa [sharedHeld] using h1
      · simp [exclusiveHeld, weight_append_one, slotWeight, Obj.exclusive, hw]
        simpa [exclusiveHeld] using h2
      · simp [hw]
      · intro o ho
        simp at ho
        rcases ho with ho | ho
        · exact h4 o ho
        · subst ho; rfl
  | enter_with_wlock =>
    cases hw : sys.sync.mutex_.writer with
    | true => simp [step, WriteLock.new, Mutex.lock, hw] at hs
    | false =>
      by_cases hr : sys.sync.mutex_.readers = 0
      · simp [step, WriteLock.new, Mutex.lock, hw, hr] at hs
        subst hs
        simp only [hw] at h2
        refine ⟨?_, ?_, ?_, ?_⟩
        · simp [sharedHeld, weight_append_one, slotWeight, Obj.shared]
          simp [sharedHeld] at h1; omega
        · simp [exclusiveHeld, weight_append_one, slotWeight, Obj.exclusive]
          simp [exclusiveHeld] at h2
          omega
        · simp [hr]
        · intro o ho
          simp at ho
          rcases ho with ho | ho
          · exact h4 o ho
          · subst ho; rfl
      · simp [step, WriteLock.new, Mutex.lock, hw, hr] at hs
  | enter_copy =>
    cases hw : sys.sync.mutex_.writer with
    | true => simp [step, ReadLock.new, Mutex.lock_shared, hw] at hs
    | false =>
      simp [step, ReadLock.new, Mutex.lock_shared, hw] at hs
      subst hs
      simp only [hw] at h2
      refine ⟨?_, ?_, ?_, ?_⟩
      · simp [sharedHeld, weight_append_one, slotWeight, Obj.shared]
        simpa [sharedHeld] using h1
      · simp [exclusiveHeld, weight_append_one, slotWeight, Obj.exclusive, hw]
        simpa [exclusiveHeld] using h2
      · simp [hw]
      · intro o ho
        simp at ho
        rcases ho with ho | ho
        · exact h4 o ho
        · subst ho; rfl
  | move i =>
    cases ho : sys.obj i with
    | none => simp [step, ho] at hs
    | some o =>
      have hslot : slot sys.objs i = some o := ho
      cases o with
      | readPtr h =>
        simp [step, ho] at hs
        subst hs
        have hw := weight_set Obj.shared sys.objs i _ (some (Obj.readPtr h.move.1)) hslot
        have hx := weight_set Obj.exclusive sys.objs i _ (some (Obj.readPtr h.move.1)) hslot
        refine ⟨?_, ?_, h3, ?_⟩
        · simp [sharedHeld, weight_append_one, slotWeight, Obj.shared, ReadPtr.move,
            ReadLock.move] at hw ⊢
          simp [sharedHeld] at h1
          omega
        · simp [exclusiveHeld, weight_append_one, slotWeight, Obj.exclusive] at hx ⊢
          simp [exclusiveHeld] at h2
          omega
        · intro o ho2
          have hwf := h4 _ (slot_mem _ _ _ hslot)
          simp at ho2
          rcases ho2 with ho2 | ho2
          · rcases List.mem_or_eq_of_mem_set ho2 with ho3 | ho3
            · exact h4 o ho3
            · simp at ho3; subst ho3
              simp [Obj.wf, Obj.engaged, Obj.backed, Obj.ptr, ReadPtr.move, ReadLock.move] at hwf ⊢
              exact hwf.2
          · subst ho2
            simpa [Obj.wf, Obj.engaged, Obj.backed, Obj.ptr, ReadPtr.move, ReadLock.move] using hwf
      | writePtr h =>
        simp [step, ho] at hs
        subst hs
        have hw := weight_set Obj.shared sys.objs i _ (some (Obj.writePtr h.move.1)) hslot
        have hx := weight_set Obj.exclusive sys.objs i _ (some (Obj.writePtr h.move.1)) hslot
        refine ⟨?_, ?_, h3, ?_⟩
        · simp [sharedHeld, weight_append_one, slotWeight, Obj.shared] at hw ⊢
          simp [sharedHeld] at h1
          omega
        · simp [exclusiveHeld, weight_append_one, slotWeight, Obj.exclusive, WritePtr.move,
            WriteLock.move] at hx ⊢
          simp [exclusiveHeld] at h2
          omega
        · intro o ho2
          have hwf := h4 _ (slot_mem _ _ _ hslot)
          simp at ho2
          rcases ho2 with ho2 | ho2
          · rcases List.mem_or_eq_of_mem_set ho2 with ho3 | ho3
            · exact h4 o ho3
            · simp at ho3; subst ho3
              simp [Obj.wf, Obj.engaged, Obj.backed, Obj.ptr, WritePtr.move, WriteLock.move] at hwf ⊢
              exact hwf.2
          · subst ho2
            simpa [Obj.wf, Obj.engaged, Obj.backed, Obj.ptr, WritePtr.move, WriteLock.move] using hwf
      | rframe l p => simp [step, ho] at hs
      | wframe l p => simp [step, ho] at hs
      | cframe l => simp [step, ho] at hs
  | assign i v =>
    cases ho : sys.obj i with
    | none => simp [step, ho] at hs
    | some o =>
      cases o with
      | writePtr h =>
        cases hp : h.data_ with
        | null => simp [step, ho, WritePtr.assign, Ptr.write, hp] at hs
        | payload =>
          simp [step, ho, WritePtr.assign, Ptr.write, hp] at hs
          subst hs
          exact ⟨h1, h2, h3, h4⟩
      | wframe l p =>
        cases p with
        | null => simp [step, ho, Ptr.write] at hs
        | payload =>
          simp [step, ho, Ptr.write] at hs
          subst hs
          exact ⟨h1, h2, h3, h4⟩
      | readPtr h => simp [step, ho] at hs
      | rframe l p => simp [step, ho] at hs
      | cframe l => simp [step, ho] at hs
  | leave i =>
    cases ho : sys.obj i with
    | none => simp [step, ho] at hs
    | some o =>
      have hslot : slot sys.objs i = some o := ho
      simp [step, ho] at hs
      subst hs
      have hw := weight_set Obj.shared sys.objs i _ none hslot
      have hx := weight_set Obj.exclusive sys.objs i _ none hslot
      simp [slotWeight] at hw hx
      simp only [sharedHeld] at h1
      simp only [exclusiveHeld] at h2
      have hmem : ∀ o1, some o1 ∈ sys.objs.set i none → some o1 ∈ sys.objs := by
        intro o1 h5
        rcases List.mem_or_eq_of_mem_set h5 with h6 | h6
        · exact h6
        · simp at h6
      refine ⟨?_, ?_, ?_, fun o1 h5 => h4 o1 (hmem o1 h5)⟩
      all_goals
        cases hwr : sys.sync.mutex_.writer <;>
        rcases o with ⟨⟨pm, _ | _⟩, p⟩ | ⟨⟨pm, _ | _⟩, p⟩ | ⟨⟨pm, _ | _⟩, p⟩ |
          ⟨⟨pm, _ | _⟩, p⟩ | ⟨⟨pm, _ | _⟩⟩ <;>
        simp [sharedHeld, exclusiveHeld, Obj.destroy, ReadPtr.destroy, WritePtr.destroy,
          ReadLock.destroy, WriteLock.destroy, Mutex.unlock, Mutex.unlock_shared,
          Obj.shared, Obj.exclusive, hwr] at hw hx h2 h3 ⊢ <;>
        omega

theorem step_engaged (sys sys1 : Sys T) (a : Action T)
    (hall : ∀ o, some o ∈ sys.objs → o.engaged = true) (ha : a.isMove = false)
    (hs : sys.step a = some sys1) : ∀ o, some o ∈ sys1.objs → o.engaged = true := by
  have happ : ∀ (x : Obj), x.engaged = true →
      ∀ o, some o ∈ sys.objs ++ [some x] → o.engaged = true := by
    intro x hx o ho
    simp at ho
    rcases ho with ho | ho
    · exact hall o ho
    · subst ho; exact hx
  cases a with
  | rlock =>
    cases hw : sys.sync.mutex_.writer with
    | true => simp [step, Sync.rlock, ReadPtr.new, ReadLock.new, Mutex.lock_shared, hw] at hs
    | false =>
      simp [step, Sync.rlock, ReadPtr.new, ReadLock.new, Mutex.lock_shared, hw] at hs
      subst hs
      exact happ _ rfl
  | wlock =>
    cases hl : sys.sync.mutex_.lock with
    | none => simp [step, Sync.wlock, WritePtr.new, WriteLock.new, hl] at hs
    | some m =>
      simp [step, Sync.wlock, WritePtr.new, WriteLock.new, hl] at hs
      subst hs
      exact happ _ rfl
  | enter_with_rlock =>
    cases hl : sys.sync.mutex_.lock_shared with
    | none => simp [step, ReadLock.new, hl] at hs
    | some m =>
      simp [step, ReadLock.new, hl] at hs
      subst hs
      exact happ _ rfl
  | enter_with_wlock =>
    cases hl : sys.sync.mutex_.lock with
    | none => simp [step, WriteLock.new, hl] at hs
    | some m =>
      simp [step, WriteLock.new, hl] at hs
      subst hs
      exact happ _ rfl
  | enter_copy =>
    cases hl : sys.sync.mutex_.lock_shared with
    | none => simp [step, ReadLock.new, hl] at hs
    | some m =>
      simp [step, ReadLock.new, hl] at hs
      subst hs
      exact happ _ rfl
  | move i => simp [Action.isMove] at ha
  | assign i v =>
    have hobjs : sys1.objs = sys.objs := by
      cases ho : sys.obj i with
      | none => simp [step, ho] at hs
      | some o =>
        cases o with
        | writePtr h =>
          cases hp : h.data_ with
          | null => simp [step, ho, WritePtr.assign, Ptr.write, hp] at hs
          | payload =>
            simp [step, ho, WritePtr.assign, Ptr.write, hp] at hs
            subst hs; rfl
        | wframe l p =>
          cases p with
          | null => simp [step, ho, Ptr.write] at hs
          | payload =>
            simp [step, ho, Ptr.write] at hs
            subst hs; rfl
        | readPtr h => simp [step, ho] at hs
        | rframe l p => simp [step, ho] at hs
        | cframe l => simp [step, ho] at hs
    rw [hobjs]; exact hall
  | leave i =>
    cases ho : sys.obj i with
    | none => simp [step, ho] at hs
    | some o =>
      simp [step, ho] at hs
      subst hs
      intro o1 h5
      rcases List.mem_or_eq_of_mem_set h5 with h6 | h6
      · exact hall o1 h6
      · simp at h6

theorem run_engaged (sys sys1 : Sys T) (as : List (Action T))
    (hall : ∀ o, some o ∈ sys.objs → o.engaged = true)
    (ha : ∀ a ∈ as, a.isMove = false)
    (hr : sys.run as = some sys1) : ∀ o, some o ∈ sys1.objs → o.engaged = true := by
  induction as generalizing sys with
  | nil => simp [run] at hr; subst hr; exact hall
  | cons a as ih =>
    cases hs : sys.step a with
    | none => simp [run, hs] at hr
    | some sys2 =>
      simp [run, hs] at hr
      exact ih sys2 (step_engaged sys sys2 a hall (ha a (by simp)) hs)
        (fun b hb => ha b (by simp [hb])) hr

theorem step_keeps (sys sys1 : Sys T) (a : Action T) (i : Nat) (o : Obj)
    (ha : a.ends i = false) (ho : sys.obj i = some o)
    (hs : sys.step a = some sys1) : sys1.obj i = some o := by
  have hslot : slot sys.objs i = some o := ho
  cases a with
  | rlock =>
    cases hl : sys.sync.mutex_.lock_shared with
    | none => simp [step, Sync.rlock, ReadPtr.new, ReadLock.new, hl] at hs
    | some m =>
      simp [step, Sync.rlock, ReadPtr.new, ReadLock.new, hl] at hs
      subst hs
      exact slot_append_lt _ _ _ _ hslot
  | wlock =>
    cases hl : sys.sync.mutex_.lock with
    | none => simp [step, Sync.wlock, WritePtr.new, WriteLock.new, hl] at hs
    | some m =>
      simp [step, Sync.wlock, WritePtr.new, WriteLock.new, hl] at hs
      subst hs
      exact slot_append_lt _ _ _ _ hslot
  | enter_with_rlock =>
    cases hl : sys.sync.mutex_.lock_shared with
    | none => simp [step, ReadLock.new, hl] at hs
    | some m =>
      simp [step, ReadLock.new, hl] at hs
      subst hs
      exact slot_append_lt _ _ _ _ hslot
  | enter_with_wlock =>
    cases hl : sys.sync.mutex_.lock with
    | none => simp [step, WriteLock.new, hl] at hs
    | some m =>
      simp [step, WriteLock.new, hl] at hs
      subst hs
      exact slot_append_lt _ _ _ _ hslot
  | enter_copy =>
    cases hl : sys.sync.mutex_.lock_shared with
    | none => simp [step, ReadLock.new, hl] at hs
    | some m =>
      simp [step, ReadLock.new, hl] at hs
      subst hs
      exact slot_append_lt _ _ _ _ hslot
  | move j =>
    simp [Action.ends] at ha
    have hkeep : ∀ x y : Option Obj, slot (sys.objs.set j x ++ [y]) i = some o := by
      intro x y
      apply slot_append_lt
      rw [slot_set_ne _ _ _ _ (Ne.symm ha)]
      exact hslot
    cases hj : sys.obj j with
    | none => simp [step, hj] at hs
    | some oj =>
      cases oj with
      | readPtr h => simp [step, hj] at hs; subst hs; exact hkeep _ _
      | writePtr h => simp [step, hj] at hs; subst hs; exact hkeep _ _
      | rframe l p => simp [step, hj] at hs
      | wframe l p => simp [step, hj] at hs
      | cframe l => simp [step, hj] at hs
  | assign j v =>
    have hobjs : sys1.objs = sys.objs := by
      cases hj : sys.obj j with
      | none => simp [step, hj] at hs
      | some oj =>
        cases oj with
        | writePtr h =>
          cases hp : h.data_ with
          | null => simp [step, hj, WritePtr.assign, Ptr.write, hp] at hs
          | payload =>
            simp [step, hj, WritePtr.assign, Ptr.write, hp] at hs
            subst hs; rfl
        | wframe l p =>
          cases p with
          | null => simp [step, hj, Ptr.write] at hs
          | payload =>
            simp [step, hj, Ptr.write] at hs
            subst hs; rfl
        | readPtr h => simp [step, hj] at hs
        | rframe l p => simp [step, hj] at hs
        | cframe l => simp [step, hj] at hs
    simp [obj, hobjs]; exact hslot
  | leave j =>
    simp [Action.ends] at ha
    cases hj : sys.obj j with
    | none => simp [step, hj] at hs
    | some oj =>
      simp [step, hj] at hs
      subst hs
      show slot (sys.objs.set j none) i = some o
      rw [slot_set_ne _ _ _ _ (Ne.symm ha)]
      exact hslot

theorem run_keeps (sys sys1 : Sys T) (as : List (Action T)) (i : Nat) (o : Obj)
    (ha : ∀ a ∈ as, a.ends i = false) (ho : sys.obj i = some o)
    (hr : sys.run as = some sys1) : sys1.obj i = some o := by
  induction as generalizing sys with
  | nil => simp [run] at hr; subst hr; exact ho
  | cons a as ih =>
    cases hs : sys.step a with
    | none => simp [run, hs] at hr
    | some sys2 =>
      simp [run, hs] at hr
      exact ih sys2 (fun b hb => ha b (by simp [hb]))
        (step_keeps sys sys2 a i o (ha a (by simp)) ho hs) hr

theorem run_inv (sys sys1 : Sys T) (as : List (Action T)) (hinv : sys.Inv)
    (hr : sys.run as = some sys1) : sys1.Inv := by
  induction as generalizing sys with
  | nil => simp [run] at hr; subst hr; exact hinv
  | cons a as ih =>
    cases hs : sys.step a with
    | none => simp [run, hs] at hr
    | some sys2 =>
      simp [run, hs] at hr
      exact ih sys2 (step_inv sys sys2 a hinv hs) hr

theorem reachable_inv (sys : Sys T) (h : sys.Reachable) : sys.Inv := by
  obtain ⟨v, as, hr⟩ := h
  exact run_inv (init v) sys as (inv_init v) hr

theorem run_append (sys : Sys T) (as bs : List (Action T)) :
    sys.run (as ++ bs) = (sys.run as).bind (fun s => s.run bs) := by
  induction as generalizing sys with
  | nil => simp [run]
  | cons a as ih =>
    cases hs : sys.step a with
    | none => simp [run, hs]
    | some sys2 => simp [run, hs, ih]

theorem reachable_run (sys sys1 : Sys T) (as : List (Action T)) (h : sys.Reachable)
    (hr : sys.run as = some sys1) : sys1.Reachable := by
  obtain ⟨v, bs, hb⟩ := h
  exact ⟨v, bs ++ as, by simp [run_append, hb, hr]⟩

end Sys

namespace Sync

variable {T Env ε R : Type}

theorem with_rlock_eq (s : Sync T) (f : Env → T → Env × Except ε R) (env : Env)
    (hw : s.mutex_.writer = false) : s.with_rlock f env = some (s, f env s.data_) := by
  obtain ⟨⟨r, w⟩, d⟩ := s
  simp at hw
  subst hw
  rcases hf : f env d with ⟨e1, x | x⟩ <;>
    simp [with_rlock, ReadLock.new, Mutex.lock_shared, Ptr.read, hf, ReadLock.destroy,
      Mutex.unlock_shared]

theorem with_wlock_eq (s : Sync T) (f : Env → T → Env × T × Except ε R) (env : Env)
    (hfree : s.mutex_ = Mutex.init) :
    s.with_wlock f env =
      some ({ s with data_ := (f env s.data_).2.1 }, (f env s.data_).1, (f env s.data_).2.2) := by
  obtain ⟨m, d⟩ := s
  simp at hfree
  subst hfree
  rcases hf : f env d with ⟨e1, v1, x | x⟩ <;>
    simp [with_wlock, WriteLock.new, Mutex.lock, Mutex.init, Ptr.read, Ptr.write, hf,
      WriteLock.destroy, Mutex.unlock]

theorem copy_eq (s : Sync T) (hw : s.mutex_.writer = false) : s.copy = some (s, s.data_) := by
  obtain ⟨⟨r, w⟩, d⟩ := s
  simp at hw
  subst hw
  simp [copy, ReadLock.new, Mutex.lock_shared, ReadLock.destroy, Mutex.unlock_shared]

theorem rlock_eq (s : Sync T) (hw : s.mutex_.writer = false) :
    s.rlock = some ({ s with mutex_ := { s.mutex_ with readers := s.mutex_.readers + 1 } },
      { lock_ := { pm := true, owns := true }, data_ := Ptr.payload }) := by
  simp [rlock, ReadPtr.new, ReadLock.new, Mutex.lock_shared, hw]

theorem wlock_eq (s : Sync T) (hfree : s.mutex_ = Mutex.init) :
    s.wlock = some ({ s with mutex_ := { s.mutex_ with writer := true } },
      { lock_ := { pm := true, owns := true }, data_ := Ptr.payload }) := by
  simp [wlock, WritePtr.new, WriteLock.new, Mutex.lock, hfree, Mutex.init]

end Sync

/-! ## The callback accessors and `copy()` -/

section Sequential

variable {T Env ε R : Type}

/-- C1: on a container whose lock is free and whose payload is `v`, `with_wlock(f)`
returns exactly what `f` produced, leaves the lock free and the payload as `f` left it,
and a subsequent `rlock()` succeeds with a handle that dereferences to that payload.
For the payload 5 and the callback "add 10 and return the payload" the call returns 15
and the subsequent `rlock()` dereferences to 15. -/
theorem with_wlock_then_rlock (v : T) (f : Env → T → Env × T × Except ε R) (env : Env) :
    (∃ (s1 s2 : Sync T) (h : ReadPtr),
      Sync.with_wlock { mutex_ := Mutex.init, data_ := v } f env
        = some (s1, (f env v).1, (f env v).2.2) ∧
      s1.data_ = (f env v).2.1 ∧ s1.mutex_ = Mutex.init ∧
      s1.rlock = some (s2, h) ∧ h.lock_.owns = true ∧
      h.deref s2 = some (f env v).2.1) ∧
    (∃ (t1 t2 : Sync Int) (k : ReadPtr),
      (Sync.construct (5 : Int)).with_wlock addTen () = some (t1, (), Except.ok 15) ∧
      t1.rlock = some (t2, k) ∧ k.deref t2 = some 15) := by
  constructor
  · refine ⟨{ mutex_ := Mutex.init, data_ := (f env v).2.1 }, _, _, ?_, rfl, rfl,
      Sync.rlock_eq _ rfl, rfl, rfl⟩
    exact Sync.with_wlock_eq _ f env rfl
  · exact ⟨{ mutex_ := Mutex.init, data_ := 15 }, _, _, rfl, Sync.rlock_eq _ rfl, rfl⟩

/-- C2: on a container with payload `v` (no writer active) `copy()` returns `v` and
leaves the container, payload and lock state, as it was; when a mutation is later
applied through `with_wlock` (the lock being free), the value obtained from `copy()`
is still `v` while the payload of the container is what the mutation left. With
payload [1,2,3] and the mutation "append 4" the copy is [1,2,3] and the container
holds [1,2,3,4]. -/
theorem copy_independent_of_later_mutation (s : Sync T)
    (f : Env → T → Env × T × Except ε R) (env : Env) (hw : s.mutex_.writer = false) :
    s.copy = some (s, s.data_) ∧
    (s.mutex_.readers = 0 →
      (s.copy).bind (fun out1 =>
        (out1.1.with_wlock f env).map (fun out2 => (out1.2, out2.1.data_)))
        = some (s.data_, (f env s.data_).2.1)) ∧
    (Sync.construct [1, 2, 3]).copy = some (Sync.construct [1, 2, 3], [1, 2, 3]) ∧
    ((Sync.construct [1, 2, 3]).copy).bind (fun out1 =>
        (out1.1.with_wlock pushBack4 ()).map (fun out2 => (out1.2, out2.1.data_)))
      = some ([1, 2, 3], [1, 2, 3, 4]) := by
  refine ⟨Sync.copy_eq s hw, ?_, rfl, rfl⟩
  intro hr
  have hfree : s.mutex_ = Mutex.init := by
    obtain ⟨⟨r, w⟩, d⟩ := s
    simp at hw hr
    simp [Mutex.init, hw, hr]
  simp [Sync.copy_eq s hw, Sync.with_wlock_eq s f env hfree]

/-- Witness for C2 on the container holding [1,2,3] with a free lock. -/
theorem copy_independent_of_later_mutation_witness :
    (Sync.construct [1, 2, 3]).mutex_.writer = false ∧
    (Sync.construct [1, 2, 3]).mutex_.readers = 0 ∧
    (Sync.construct [1, 2, 3]).copy = some (Sync.construct [1, 2, 3], [1, 2, 3]) ∧
    ((Sync.construct [1, 2, 3]).copy).bind (fun out1 =>
        (out1.1.with_wlock pushBack4 ()).map (fun out2 => (out1.2, out2.1.data_)))
      = some ((Sync.construct [1, 2, 3]).data_,
          (pushBack4 () (Sync.construct [1, 2, 3]).data_).2.1) :=
  ⟨rfl, rfl,
   (copy_independent_of_later_mutation (Sync.construct [1, 2, 3]) pushBack4 () rfl).1,
   (copy_independent_of_later_mutation (Sync.construct [1, 2, 3]) pushBack4 () rfl).2.1 rfl⟩

/-- C3: when the callback fails, `with_wlock` (lock free) and `with_rlock` (no writer
active) hand the failure of the callback to the caller unchanged, and the lock state
after the failed call is the lock state before it; on a previously free container an
immediately following `rlock()` and an immediately following `wlock()` both succeed. -/
theorem callback_failure_releases_lock (s : Sync T)
    (fw : Env → T → Env × T × Except ε R) (fr : Env → T → Env × Except ε R)
    (env : Env) (e : ε) :
    (s.mutex_ = Mutex.init → (fw env s.data_).2.2 = Except.error e →
      ∃ s1 : Sync T, s.with_wlock fw env = some (s1, (fw env s.data_).1, Except.error e) ∧
        s1.mutex_ = s.mutex_ ∧ s1.rlock.isSome = true ∧ s1.wlock.isSome = true) ∧
    (s.mutex_.writer = false → (fr env s.data_).2 = Except.error e →
      ∃ s1 : Sync T, s.with_rlock fr env = some (s1, (fr env s.data_).1, Except.error e) ∧
        s1.mutex_ = s.mutex_ ∧
        (s.mutex_ = Mutex.init → s1.rlock.isSome = true ∧ s1.wlock.isSome = true)) := by
  constructor
  · intro hfree hfail
    refine ⟨{ s with data_ := (fw env s.data_).2.1 }, ?_, rfl, ?_, ?_⟩
    · rw [Sync.with_wlock_eq s fw env hfree, hfail]
    · rw [Sync.rlock_eq _ (by simp [hfree, Mutex.init])]; rfl
    · rw [Sync.wlock_eq _ (by simp [hfree])]; rfl
  · intro hw hfail
    refine ⟨s, ?_, rfl, ?_⟩
    · rw [Sync.with_rlock_eq s fr env hw]
      rw [← hfail]
    · intro hfree
      constructor
      · rw [Sync.rlock_eq _ hw]; rfl
      · rw [Sync.wlock_eq _ hfree]; rfl

/-- Witness for C3: a write callback and a read callback that throw 42 on a fresh
container. -/
theorem callback_failure_releases_lock_witness :
    (∃ s1 : Sync Nat,
      (Sync.construct 0).with_wlock storeThenThrow () = some (s1, (), Except.error 42) ∧
      s1.mutex_ = (Sync.construct 0).mutex_ ∧ s1.rlock.isSome = true ∧
      s1.wlock.isSome = true) ∧
    (∃ s1 : Sync Nat,
      (Sync.construct 0).with_rlock readThenThrow () = some (s1, (), Except.error 42) ∧
      s1.mutex_ = (Sync.construct 0).mutex_ ∧
      s1.rlock.isSome = true ∧ s1.wlock.isSome = true) :=
  ⟨(callback_failure_releases_lock (Sync.construct 0) storeThenThrow readThenThrow () 42).1
      rfl rfl,
   match (callback_failure_releases_lock (Sync.construct 0) storeThenThrow readThenThrow
      () 42).2 rfl rfl with
   | ⟨s1, h1, h2, h3⟩ => ⟨s1, h1, h2, h3 rfl⟩⟩

/-- C10: the two access idioms agree. `with_wlock(f)` yields the same returned value,
final payload and final lock state as `wlock()`, then `f` on the payload the handle
dereferences to, then destruction of the handle; `with_rlock(f)` agrees in the same
way with `rlock()`; and `copy()` agrees with `with_rlock` applied to the callback that
returns a copy of the payload. With a free lock all of these calls return. -/
theorem callback_idiom_agrees_with_handle_idiom (s : Sync T)
    (fw : Env → T → Env × T × Except ε R) (fr : Env → T → Env × Except ε R) (env : Env) :
    s.with_wlock fw env = s.via_wlock fw env ∧
    s.with_rlock fr env = s.via_rlock fr env ∧
    s.with_rlock Sync.copyCallback () =
      (s.copy).map (fun out => (out.1, (), (Except.ok out.2 : Except Empty T))) ∧
    (s.mutex_ = Mutex.init →
      (s.with_wlock fw env).isSome = true ∧ (s.via_wlock fw env).isSome = true ∧
      (s.with_rlock fr env).isSome = true ∧ (s.via_rlock fr env).isSome = true ∧
      (s.copy).isSome = true) := by
  have hwl : s.with_wlock fw env = s.via_wlock fw env := by
    obtain ⟨⟨r, w⟩, d⟩ := s
    cases w with
    | true => simp [Sync.with_wlock, Sync.via_wlock, Sync.wlock, WritePtr.new, WriteLock.new,
        Mutex.lock]
    | false =>
      by_cases hr : r = 0
      · subst hr
        rcases hf : fw env d with ⟨e1, v1, x | x⟩ <;>
          simp [Sync.with_wlock, Sync.via_wlock, Sync.wlock, WritePtr.new, WriteLock.new,
            Mutex.lock, Ptr.read, Ptr.write, WritePtr.deref, WritePtr.assign, hf,
            Sync.dropWrite, WritePtr.destroy]
      · simp [Sync.with_wlock, Sync.via_wlock, Sync.wlock, WritePtr.new, WriteLock.new,
          Mutex.lock, hr]
  have hrl : s.with_rlock fr env = s.via_rlock fr env := by
    obtain ⟨⟨r, w⟩, d⟩ := s
    cases w with
    | true => simp [Sync.with_rlock, Sync.via_rlock, Sync.rlock, ReadPtr.new, ReadLock.new,
        Mutex.lock_shared]
    | false =>
      rcases hf : fr env d with ⟨e1, x | x⟩ <;>
        simp [Sync.with_rlock, Sync.via_rlock, Sync.rlock, ReadPtr.new, ReadLock.new,
          Mutex.lock_shared, Ptr.read, ReadPtr.deref, hf, Sync.dropRead, ReadPtr.destroy]
  have hcp : s.with_rlock Sync.copyCallback () =
      (s.copy).map (fun out => (out.1, (), (Except.ok out.2 : Except Empty T))) := by
    obtain ⟨⟨r, w⟩, d⟩ := s
    cases w <;>
      simp [Sync.with_rlock, Sync.copy, ReadLock.new, Mutex.lock_shared, Ptr.read,
        Sync.copyCallback]
  refine ⟨hwl, hrl, hcp, ?_⟩
  intro hfree
  have hw : s.mutex_.writer = false := by simp [hfree, Mutex.init]
  refine ⟨?_, ?_, ?_, ?_, ?_⟩
  · rw [Sync.with_wlock_eq s fw env hfree]; rfl
  · rw [← hwl, Sync.with_wlock_eq s fw env hfree]; rfl
  · rw [Sync.with_rlock_eq s fr env hw]; rfl
  · rw [← hrl, Sync.with_rlock_eq s fr env hw]; rfl
  · rw [Sync.copy_eq s hw]; rfl

/-- Witness for C10 on a fresh container holding 5. -/
theorem callback_idiom_agrees_with_handle_idiom_witness :
    ((Sync.construct 5).with_wlock storeThenThrow ()).isSome = true ∧
    ((Sync.construct 5).via_wlock storeThenThrow ()).isSome = true ∧
    ((Sync.construct 5).with_rlock readThenThrow ()).isSome = true ∧
    ((Sync.construct 5).via_rlock readThenThrow ()).isSome = true ∧
    ((Sync.construct 5).copy).isSome = true :=
  (callback_idiom_agrees_with_handle_idiom (Sync.construct 5) storeThenThrow readThenThrow
    ()).2.2.2 rfl

end Sequential

/-! ## Interleaved executions -/

section Interleaved

variable {T : Type}

theorem run_rlocks (sys : Sys T) (n : Nat) (hw : sys.sync.mutex_.writer = false) :
    sys.run (List.replicate n Action.rlock) =
      some { sync := { sys.sync with
                       mutex_ := { sys.sync.mutex_ with readers := sys.sync.mutex_.readers + n } },
             objs := sys.objs ++ List.replicate n (some (Obj.readPtr ownedRead)) } := by
  induction n generalizing sys with
  | zero => simp [Sys.run]
  | succ k ih =>
    have hstep : sys.step Action.rlock = some
        { sync := { sys.sync with
                    mutex_ := { sys.sync.mutex_ with readers := sys.sync.mutex_.readers + 1 } },
          objs := sys.objs ++ [some (Obj.readPtr ownedRead)] } := by
      simp [Sys.step, Sync.rlock_eq _ hw, ownedRead]
    simp only [List.replicate_succ, Sys.run, hstep]
    rw [ih]
    · simp [Nat.add_assoc, Nat.add_comm 1 k]
    · exact hw

theorem held_exclusion (sys : Sys T) (hinv : sys.Inv) :
    sys.exclusiveHeld = 0 ∨ (sys.exclusiveHeld = 1 ∧ sys.sharedHeld = 0) := by
  obtain ⟨h1, h2, h3, _⟩ := hinv
  cases hw : sys.sync.mutex_.writer with
  | false => left; simp [hw] at h2; omega
  | true =>
    right
    have := h3 hw
    simp [hw] at h2
    omega

/-! The callback accessors and `copy()` are the composition of the steps of the
interleaving model: entering (the local `lock` is constructed), the accesses through
`ptr`, and leaving (the local `lock` is destroyed). -/

theorem copy_as_steps (sys : Sys T) :
    sys.sync.copy =
      (sys.step Action.enter_copy).bind (fun sys1 =>
        (sys1.step (Action.leave sys.objs.length)).map (fun sys2 =>
          (sys2.sync, sys1.sync.data_))) := by
  obtain ⟨⟨⟨r, w⟩, d⟩, os⟩ := sys
  cases w with
  | true => simp [Sync.copy, Sys.step, ReadLock.new, Mutex.lock_shared]
  | false =>
    have hslot : slot (os ++ [some (Obj.cframe { pm := true, owns := true })])
        os.length = some (Obj.cframe { pm := true, owns := true }) :=
      slot_append_length _ _
    simp [Sync.copy, Sys.step, ReadLock.new, Mutex.lock_shared, Sys.obj, hslot, Obj.destroy]

theorem with_wlock_as_steps {Env ε R : Type} (sys : Sys T)
    (f : Env → T → Env × T × Except ε R) (env : Env) :
    sys.sync.with_wlock f env =
      (sys.step Action.enter_with_wlock).bind (fun sys1 =>
        (sys1.step (Action.assign sys.objs.length (f env sys1.sync.data_).2.1)).bind
          (fun sys2 =>
            (sys2.step (Action.leave sys.objs.length)).map (fun sys3 =>
              (sys3.sync, (f env sys1.sync.data_).1, (f env sys1.sync.data_).2.2)))) := by
  obtain ⟨⟨⟨r, w⟩, d⟩, os⟩ := sys
  cases w with
  | true => simp [Sync.with_wlock, Sys.step, WriteLock.new, Mutex.lock]
  | false =>
    by_cases hr : r = 0
    · subst hr
      have hslot : slot (os ++ [some (Obj.wframe { pm := true, owns := true } Ptr.payload)])
          os.length = some (Obj.wframe { pm := true, owns := true } Ptr.payload) :=
        slot_append_length _ _
      rcases hf : f env d with ⟨e1, v1, x | x⟩ <;>
        simp [Sync.with_wlock, Sys.step, WriteLock.new, Mutex.lock, Ptr.read, Ptr.write, hf,
          Sys.obj, hslot, Obj.destroy]
    · simp [Sync.with_wlock, Sys.step, WriteLock.new, Mutex.lock, hr]

/-- C4: in every state reachable by interleaving `rlock`, `wlock`, `with_rlock`,
`with_wlock`, `copy` (and the moves, writes and scope exits of their objects), for any
payload type, an object holding an exclusive acquisition coexists with no other
object holding an acquisition of either class; and any number `n` of shared
acquisitions can be held at the same time. -/
theorem exclusive_excludes_all_others (sys : Sys T) (hr : sys.Reachable) :
    (∀ (i j : Nat) (a b : Obj), i ≠ j → sys.obj i = some a → sys.obj j = some b →
      a.exclusive = 1 → b.shared = 0 ∧ b.exclusive = 0) ∧
    (sys.exclusiveHeld = 0 ∨ (sys.exclusiveHeld = 1 ∧ sys.sharedHeld = 0)) ∧
    (∀ n : Nat, ∃ sys1 : Sys T, sys1.Reachable ∧ sys1.exclusiveHeld = 0 ∧
      sys1.sharedHeld = n ∧ ∀ k < n, sys1.obj k = some (Obj.readPtr ownedRead)) := by
  have hinv := Sys.reachable_inv sys hr
  have hex := held_exclusion sys hinv
  refine ⟨?_, hex, ?_⟩
  · intro i j a b hij ha hb hax
    have h2 := weight_two_le Obj.held sys.objs i j a b hij ha hb
    have h3 := slotWeight_le_weight Obj.exclusive sys.objs i a ha
    rw [weight_held] at h2
    simp only [Sys.exclusiveHeld, Sys.sharedHeld] at hex
    simp only [Obj.held] at h2
    omega
  · intro n
    obtain ⟨v, _, _⟩ := hr
    have hrun := run_rlocks (Sys.init v) n rfl
    refine ⟨_, ⟨v, _, hrun⟩, ?_, ?_, ?_⟩
    · simp [Sys.exclusiveHeld, Sys.init, weight, weight_replicate, Obj.exclusive]
    · simp [Sys.sharedHeld, Sys.init, weight, weight_replicate, Obj.shared, ownedRead]
    · intro k hk
      simp [Sys.obj, Sys.init]
      exact slot_replicate n k _ hk

/-- Witness for C4: the state after `wlock()` on a fresh container. -/
theorem exclusive_excludes_all_others_witness :
    (∃ sys : Sys Nat, (Sys.init 0).run [Action.wlock] = some sys ∧
      (sys.exclusiveHeld = 0 ∨ (sys.exclusiveHeld = 1 ∧ sys.sharedHeld = 0))) :=
  ⟨_, rfl, (exclusive_excludes_all_others
    ({ sync := { mutex_ := { readers := 0, writer := true }, data_ := 0 },
       objs := [some (Obj.writePtr ownedWrite)] } : Sys Nat)
    ⟨0, [Action.wlock], rfl⟩).2.1⟩

/-- C5, as stated, fails: after `auto a = s.wlock(); { auto b = std::move(a); }` on a
container holding 7 the handle `a` is still there, its lock member owns nothing and the
mutex is free, yet `*a` reads the payload 7 and `*a = 9` stores 9 into the container. -/
theorem moved_from_handle_still_dereferences :
    (Sys.init 7).run [Action.wlock, Action.move 0, Action.leave 1] =
      some { sync := { mutex_ := Mutex.init, data_ := 7 },
             objs := [some (Obj.writePtr movedFromWrite), none] } ∧
    movedFromWrite.lock_.owns = false ∧
    movedFromWrite.deref ({ mutex_ := Mutex.init, data_ := 7 } : Sync Nat) = some 7 ∧
    Sys.step ({ sync := { mutex_ := Mutex.init, data_ := 7 },
                objs := [some (Obj.writePtr movedFromWrite), none] } : Sys Nat)
        (Action.assign 0 9) =
      some { sync := { mutex_ := Mutex.init, data_ := 9 },
             objs := [some (Obj.writePtr movedFromWrite), none] } ∧
    ¬ (∀ sys : Sys Nat, sys.Reachable → ∀ (i : Nat) (h : WritePtr),
        sys.obj i = some (Obj.writePtr h) → (h.deref sys.sync).isSome = true →
        h.lock_.owns = true) := by
  refine ⟨rfl, rfl, rfl, rfl, ?_⟩
  intro hall
  have := hall _ ⟨7, [Action.wlock, Action.move 0, Action.leave 1], rfl⟩ 0 movedFromWrite rfl rfl
  simp [movedFromWrite] at this

theorem ghostOK_lookup (g : List Bool) (os : List (Option Obj)) (i : Nat) (o : Obj)
    (hg : ghostOK g os) (h : slot os i = some o) :
    o.backed = !flag g i ∧ (flag g i = true → o.isHandle = true) := by
  induction os generalizing g i with
  | nil => simp [slot] at h
  | cons y ys ih =>
    cases g with
    | nil => simp [ghostOK] at hg
    | cons b g =>
      obtain ⟨h1, h2⟩ := hg
      cases i with
      | zero =>
        simp [slot] at h
        subst h
        simpa [flag, slotOK] using h1
      | succ n =>
        simp [slot] at h
        simpa [flag] using ih g n h2 h

theorem ghostOK_append (g : List Bool) (os : List (Option Obj)) (b : Bool) (x : Option Obj)
    (hg : ghostOK g os) (hx : slotOK b x) : ghostOK (g ++ [b]) (os ++ [x]) := by
  induction os generalizing g with
  | nil =>
    cases g with
    | nil => simpa [ghostOK] using hx
    | cons c g => simp [ghostOK] at hg
  | cons y ys ih =>
    cases g with
    | nil => simp [ghostOK] at hg
    | cons c g => exact ⟨hg.1, ih g hg.2⟩

theorem ghostOK_set (g : List Bool) (os : List (Option Obj)) (i : Nat) (b : Bool)
    (x : Option Obj) (hg : ghostOK g os) (hx : slotOK b x) :
    ghostOK (g.set i b) (os.set i x) := by
  induction os generalizing g i with
  | nil =>
    cases g with
    | nil => simp [ghostOK]
    | cons c g => simp [ghostOK] at hg
  | cons y ys ih =>
    cases g with
    | nil => simp [ghostOK] at hg
    | cons c g =>
      cases i with
      | zero => exact ⟨hx, hg.2⟩
      | succ n => exact ⟨hg.1, ih g n hg.2⟩

theorem ghostOK_clear (g : List Bool) (os : List (Option Obj)) (i : Nat)
    (hg : ghostOK g os) : ghostOK g (os.set i none) := by
  induction os generalizing g i with
  | nil => simp; exact hg
  | cons y ys ih =>
    cases g with
    | nil => simp [ghostOK] at hg
    | cons c g =>
      cases i with
      | zero => exact ⟨trivial, hg.2⟩
      | succ n => exact ⟨hg.1, ih g n hg.2⟩

theorem step_ghost (sys sys1 : Sys T) (a : Action T) (g : List Bool)
    (hg : ghostOK g sys.objs) (hs : sys.step a = some sys1) :
    ghostOK (a.spend g) sys1.objs := by
  have happ : ∀ x : Obj, x.backed = true →
      ghostOK (g ++ [false]) (sys.objs ++ [some x]) := by
    intro x hx
    exact ghostOK_append g sys.objs false (some x) hg ⟨by simpa using hx, by simp⟩
  cases a with
  | rlock =>
    cases hl : sys.sync.mutex_.lock_shared with
    | none => simp [Sys.step, Sync.rlock, ReadPtr.new, ReadLock.new, hl] at hs
    | some m =>
      simp [Sys.step, Sync.rlock, ReadPtr.new, ReadLock.new, hl] at hs
      subst hs
      exact happ _ rfl
  | wlock =>
    cases hl : sys.sync.mutex_.lock with
    | none => simp [Sys.step, Sync.wlock, WritePtr.new, WriteLock.new, hl] at hs
    | some m =>
      simp [Sys.step, Sync.wlock, WritePtr.new, WriteLock.new, hl] at hs
      subst hs
      exact happ _ rfl
  | enter_with_rlock =>
    cases hl : sys.sync.mutex_.lock_shared with
    | none => simp [Sys.step, ReadLock.new, hl] at hs
    | some m =>
      simp [Sys.step, ReadLock.new, hl] at hs
      subst hs
      exact happ _ rfl
  | enter_with_wlock =>
    cases hl : sys.sync.mutex_.lock with
    | none => simp [Sys.step, WriteLock.new, hl] at hs
    | some m =>
      simp [Sys.step, WriteLock.new, hl] at hs
      subst hs
      exact happ _ rfl
  | enter_copy =>
    cases hl : sys.sync.mutex_.lock_shared with
    | none => simp [Sys.step, ReadLock.new, hl] at hs
    | some m =>
      simp [Sys.step, ReadLock.new, hl] at hs
      subst hs
      exact happ _ rfl
  | move i =>
    cases ho : sys.obj i with
    | none => simp [Sys.step, ho] at hs
    | some o =>
      have hl := ghostOK_lookup g sys.objs i o hg ho
      cases o with
      | readPtr h =>
        simp [Sys.step, ho] at hs
        subst hs
        exact ghostOK_append _ _ _ _
          (ghostOK_set g sys.objs i true _ hg ⟨rfl, fun _ => rfl⟩)
          ⟨hl.1, fun _ => rfl⟩
      | writePtr h =>
        simp [Sys.step, ho] at hs
        subst hs
        exact ghostOK_append _ _ _ _
          (ghostOK_set g sys.objs i true _ hg ⟨rfl, fun _ => rfl⟩)
          ⟨hl.1, fun _ => rfl⟩
      | rframe l p => simp [Sys.step, ho] at hs
      | wframe l p => simp [Sys.step, ho] at hs
      | cframe l => simp [Sys.step, ho] at hs
  | assign i v =>
    have hobjs : sys1.objs = sys.objs := by
      cases ho : sys.obj i with
      | none => simp [Sys.step, ho] at hs
      | some o =>
        cases o with
        | writePtr h =>
          cases hp : h.data_ with
          | null => simp [Sys.step, ho, WritePtr.assign, Ptr.write, hp] at hs
          | payload =>
            simp [Sys.step, ho, WritePtr.assign, Ptr.write, hp] at hs
            subst hs; rfl
        | wframe l p =>
          cases p with
          | null => simp [Sys.step, ho, Ptr.write] at hs
          | payload =>
            simp [Sys.step, ho, Ptr.write] at hs
            subst hs; rfl
        | readPtr h => simp [Sys.step, ho] at hs
        | rframe l p => simp [Sys.step, ho] at hs
        | cframe l => simp [Sys.step, ho] at hs
    rw [hobjs]; exact hg
  | leave i =>
    cases ho : sys.obj i with
    | none => simp [Sys.step, ho] at hs
    | some o =>
      simp [Sys.step, ho] at hs
      subst hs
      exact ghostOK_clear g sys.objs i hg

theorem run_ghost (sys sys1 : Sys T) (as : List (Action T)) (g : List Bool)
    (hg : ghostOK g sys.objs) (hr : sys.run as = some sys1) :
    ghostOK (spentFrom g as) sys1.objs := by
  induction as generalizing sys g with
  | nil => simp [Sys.run] at hr; subst hr; exact hg
  | cons a as ih =>
    cases hs : sys.step a with
    | none => simp [Sys.run, hs] at hr
    | some sys2 =>
      simp [Sys.run, hs] at hr
      exact ih sys2 (a.spend g) (step_ghost sys sys2 a g hg hs) hr

/-- C5, amended: call a handle spent when it has been moved from or was
move-constructed from a spent handle. In every state reached by a schedule of the
public operations, every running `with_rlock`, `with_wlock` and `copy` call holds its
acquisition, and every `ReadPtr` and `WritePtr` that is not spent holds an acquisition
of the matching class (shared for a `ReadPtr`, exclusive for a `WritePtr`); a spent
handle holds none; every handle, spent or not, dereferences to the payload, and a
`WritePtr` stores through `operator*` whether or not it holds the lock; when the
schedule moves no handle, every object holds its acquisition; and the mutex accounts
for exactly the acquisitions so held. -/
theorem handle_backed_unless_spent (v : T) (as : List (Action T)) (sys : Sys T)
    (hrun : (Sys.init v).run as = some sys) :
    (∀ (i : Nat) (o : Obj), sys.obj i = some o → o.isHandle = false →
      o.backed = true ∧ o.held = 1) ∧
    (∀ (i : Nat) (h : ReadPtr), sys.obj i = some (Obj.readPtr h) →
      (flag (spent as) i = false → h.lock_.owns = true ∧ (Obj.readPtr h).shared = 1) ∧
      (flag (spent as) i = true → h.lock_.owns = false ∧ (Obj.readPtr h).held = 0) ∧
      h.deref sys.sync = some sys.sync.data_) ∧
    (∀ (i : Nat) (h : WritePtr), sys.obj i = some (Obj.writePtr h) →
      (flag (spent as) i = false → h.lock_.owns = true ∧ (Obj.writePtr h).exclusive = 1) ∧
      (flag (spent as) i = true → h.lock_.owns = false ∧ (Obj.writePtr h).held = 0) ∧
      h.deref sys.sync = some sys.sync.data_ ∧
      ∀ x : T, h.assign sys.sync x = some { sys.sync with data_ := x }) ∧
    ((∀ a ∈ as, a.isMove = false) →
      ∀ (i : Nat) (o : Obj), sys.obj i = some o → o.backed = true) ∧
    sys.sync.mutex_.readers = sys.sharedHeld ∧
    (if sys.sync.mutex_.writer then 1 else 0) = sys.exclusiveHeld := by
  have hinv := Sys.run_inv (Sys.init v) sys as (Sys.inv_init v) hrun
  have hgh : ghostOK (spent as) sys.objs :=
    run_ghost (Sys.init v) sys as [] (by simp [Sys.init, ghostOK]) hrun
  obtain ⟨h1, h2, _, h4⟩ := hinv
  have hwf : ∀ (i : Nat) (o : Obj), sys.obj i = some o → o.wf = true :=
    fun i o ho => h4 o (slot_mem _ _ _ ho)
  refine ⟨?_, ?_, ?_, ?_, h1, h2⟩
  · intro i o ho hh
    have hl := ghostOK_lookup _ _ i o hgh ho
    cases hf : flag (spent as) i with
    | true => have := hl.2 hf; simp [hh] at this
    | false =>
      have hb : o.backed = true := by simpa [hf] using hl.1
      refine ⟨hb, ?_⟩
      cases o <;> simp [Obj.isHandle] at hh <;>
        simp [Obj.backed] at hb <;> simp [Obj.held, Obj.shared, Obj.exclusive, hb]
  · intro i h ho
    have hl := ghostOK_lookup _ _ i _ hgh ho
    have hw := hwf i _ ho
    refine ⟨?_, ?_, ?_⟩
    · intro hf
      have hb : h.lock_.owns = true := by simpa [hf, Obj.backed] using hl.1
      simp [Obj.shared, hb]
    · intro hf
      have hb : h.lock_.owns = false := by simpa [hf, Obj.backed] using hl.1
      simp [Obj.held, Obj.shared, Obj.exclusive, hb]
    · simp [Obj.wf, Obj.ptr] at hw
      simp [ReadPtr.deref, hw.2, Ptr.read]
  · intro i h ho
    have hl := ghostOK_lookup _ _ i _ hgh ho
    have hw := hwf i _ ho
    simp [Obj.wf, Obj.ptr] at hw
    refine ⟨?_, ?_, ?_, ?_⟩
    · intro hf
      have hb : h.lock_.owns = true := by simpa [hf, Obj.backed] using hl.1
      simp [Obj.exclusive, hb]
    · intro hf
      have hb : h.lock_.owns = false := by simpa [hf, Obj.backed] using hl.1
      simp [Obj.held, Obj.shared, Obj.exclusive, hb]
    · simp [WritePtr.deref, hw.2, Ptr.read]
    · intro x
      simp [WritePtr.assign, hw.2, Ptr.write]
  · intro hnm i o ho
    have hall := Sys.run_engaged (Sys.init v) sys as (by simp [Sys.init]) hnm hrun
    have := hwf i o ho
    simp [Obj.wf] at this
    rw [← this.1]
    exact hall o (slot_mem _ _ _ ho)

/-- Witness for the amended C5: on a container holding 7, after `wlock()`, a move of
that handle and a second move of the same, already spent handle, the handle the first
move constructed is not spent and holds the exclusive acquisition, while the handle the
second move constructed is spent and holds none. -/
theorem handle_backed_unless_spent_witness :
    (Sys.init 7).run [Action.wlock, Action.move 0, Action.move 0] =
      some { sync := { mutex_ := { readers := 0, writer := true }, data_ := 7 },
             objs := [some (Obj.writePtr movedFromWrite), some (Obj.writePtr ownedWrite),
                      some (Obj.writePtr movedFromWrite)] } ∧
    spent [(Action.wlock : Action Nat), Action.move 0, Action.move 0] = [true, false, true] ∧
    (ownedWrite.lock_.owns = true ∧ (Obj.writePtr ownedWrite).exclusive = 1) ∧
    (movedFromWrite.lock_.owns = false ∧ (Obj.writePtr movedFromWrite).held = 0) :=
  ⟨rfl, rfl,
   ((handle_backed_unless_spent 7 [Action.wlock, Action.move 0, Action.move 0]
    { sync := { mutex_ := { readers := 0, writer := true }, data_ := 7 },
      objs := [some (Obj.writePtr movedFromWrite), some (Obj.writePtr ownedWrite),
               some (Obj.writePtr movedFromWrite)] } rfl).2.2.1
    1 ownedWrite rfl).1 rfl,
   ((handle_backed_unless_spent 7 [Action.wlock, Action.move 0, Action.move 0]
    { sync := { mutex_ := { readers := 0, writer := true }, data_ := 7 },
      objs := [some (Obj.writePtr movedFromWrite), some (Obj.writePtr ownedWrite),
               some (Obj.writePtr movedFromWrite)] } rfl).2.2.1
    2 movedFromWrite rfl).2.1 rfl⟩

/-- C6: moving a `ReadPtr` or a `WritePtr` transfers its acquisition. The destination
holds what the source held, the source holds nothing afterwards, and destroying the two
handles, in either order, does to the mutex what destroying the original would have
done: one release when the original held an acquisition. In a reachable state a move
step leaves the container untouched, empties the source and gives the new last object
what the source held; no step copies a handle, and the mutex counts exactly the
objects that hold an acquisition (handles, and the local locks of running callback
accessors and `copy()` calls), so each acquisition has exactly one holder. -/
theorem move_transfers_acquisition (sys : Sys T) (hr : sys.Reachable) :
    (∀ (h : ReadPtr) (m : Mutex),
      h.move.2.lock_ = h.lock_ ∧ h.move.1.lock_.owns = false ∧
      h.move.1.destroy (h.move.2.destroy m) = h.destroy m ∧
      h.move.2.destroy (h.move.1.destroy m) = h.destroy m ∧
      (h.lock_.owns = true → h.move.2.destroy (h.move.1.destroy m) = m.unlock_shared)) ∧
    (∀ (h : WritePtr) (m : Mutex),
      h.move.2.lock_ = h.lock_ ∧ h.move.1.lock_.owns = false ∧
      h.move.1.destroy (h.move.2.destroy m) = h.destroy m ∧
      h.move.2.destroy (h.move.1.destroy m) = h.destroy m ∧
      (h.lock_.owns = true → h.move.2.destroy (h.move.1.destroy m) = m.unlock)) ∧
    (∀ (i : Nat) (sys1 : Sys T), sys.step (Action.move i) = some sys1 →
      sys1.sync = sys.sync ∧ sys1.sharedHeld = sys.sharedHeld ∧
      sys1.exclusiveHeld = sys.exclusiveHeld ∧
      ∃ src src1 dst : Obj, sys.obj i = some src ∧ sys1.obj i = some src1 ∧
        sys1.obj sys.objs.length = some dst ∧ src1.held = 0 ∧
        dst.shared = src.shared ∧ dst.exclusive = src.exclusive) ∧
    sys.sync.mutex_.readers = sys.sharedHeld ∧
    (if sys.sync.mutex_.writer then 1 else 0) = sys.exclusiveHeld := by
  have hinv := Sys.reachable_inv sys hr
  refine ⟨?_, ?_, ?_, hinv.1, hinv.2.1⟩
  · intro h m
    rcases h with ⟨⟨pm, _ | _⟩, p⟩ <;>
      simp [ReadPtr.move, ReadLock.move, ReadPtr.destroy, ReadLock.destroy]
  · intro h m
    rcases h with ⟨⟨pm, _ | _⟩, p⟩ <;>
      simp [WritePtr.move, WriteLock.move, WritePtr.destroy, WriteLock.destroy]
  · intro i sys1 hs
    have hinv1 := Sys.step_inv sys sys1 _ hinv hs
    cases ho : sys.obj i with
    | none => simp [Sys.step, ho] at hs
    | some o =>
      have hslot : slot sys.objs i = some o := ho
      have hlen := slot_lt_length _ _ _ hslot
      cases o with
      | readPtr h =>
        simp [Sys.step, ho] at hs
        subst hs
        have hw := weight_set Obj.shared sys.objs i _ (some (Obj.readPtr h.move.1)) hslot
        have hx := weight_set Obj.exclusive sys.objs i _ (some (Obj.readPtr h.move.1)) hslot
        refine ⟨rfl, ?_, ?_, Obj.readPtr h, Obj.readPtr h.move.1, Obj.readPtr h.move.2, rfl,
          ?_, ?_, ?_, ?_, rfl⟩
        · simp [Sys.sharedHeld, weight_append_one, slotWeight, Obj.shared, ReadPtr.move,
            ReadLock.move] at hw ⊢
          omega
        · simp [Sys.exclusiveHeld, weight_append_one, slotWeight, Obj.exclusive] at hx ⊢
          omega
        · show slot (sys.objs.set i _ ++ [_]) i = _
          exact slot_append_lt _ _ _ _ (slot_set_self _ _ _ _ hslot)
        · show slot (sys.objs.set i _ ++ [_]) sys.objs.length = _
          have := slot_append_length (sys.objs.set i (some (Obj.readPtr h.move.1)))
            (some (Obj.readPtr h.move.2))
          simpa using this
        · simp [Obj.held, Obj.shared, Obj.exclusive, ReadPtr.move, ReadLock.move]
        · simp [Obj.shared, ReadPtr.move, ReadLock.move]
      | writePtr h =>
        simp [Sys.step, ho] at hs
        subst hs
        have hw := weight_set Obj.shared sys.objs i _ (some (Obj.writePtr h.move.1)) hslot
        have hx := weight_set Obj.exclusive sys.objs i _ (some (Obj.writePtr h.move.1)) hslot
        refine ⟨rfl, ?_, ?_, Obj.writePtr h, Obj.writePtr h.move.1, Obj.writePtr h.move.2, rfl,
          ?_, ?_, ?_, rfl, ?_⟩
        · simp [Sys.sharedHeld, weight_append_one, slotWeight, Obj.shared] at hw ⊢
          omega
        · simp [Sys.exclusiveHeld, weight_append_one, slotWeight, Obj.exclusive, WritePtr.move,
            WriteLock.move] at hx ⊢
          omega
        · show slot (sys.objs.set i _ ++ [_]) i = _
          exact slot_append_lt _ _ _ _ (slot_set_self _ _ _ _ hslot)
        · show slot (sys.objs.set i _ ++ [_]) sys.objs.length = _
          have := slot_append_length (sys.objs.set i (some (Obj.writePtr h.move.1)))
            (some (Obj.writePtr h.move.2))
          simpa using this
        · simp [Obj.held, Obj.shared, Obj.exclusive, WritePtr.move, WriteLock.move]
        · simp [Obj.exclusive, WritePtr.move, WriteLock.move]
      | rframe l p => simp [Sys.step, ho] at hs
      | wframe l p => simp [Sys.step, ho] at hs
      | cframe l => simp [Sys.step, ho] at hs

/-- Witness for C6: the state after `rlock()` on a container holding 7, whose handle can
be moved. -/
theorem move_transfers_acquisition_witness :
    (Sys.init 7).run [Action.rlock] =
      some { sync := { mutex_ := { readers := 1, writer := false }, data_ := 7 },
             objs := [some (Obj.readPtr ownedRead)] } ∧
    Sys.step ({ sync := { mutex_ := { readers := 1, writer := false }, data_ := 7 },
                objs := [some (Obj.readPtr ownedRead)] } : Sys Nat) (Action.move 0) =
      some { sync := { mutex_ := { readers := 1, writer := false }, data_ := 7 },
             objs := [some (Obj.readPtr movedFromRead), some (Obj.readPtr ownedRead)] } ∧
    Sys.sharedHeld ({ sync := { mutex_ := { readers := 1, writer := false }, data_ := 7 },
                      objs := [some (Obj.readPtr movedFromRead),
                               some (Obj.readPtr ownedRead)] } : Sys Nat) =
      Sys.sharedHeld ({ sync := { mutex_ := { readers := 1, writer := false }, data_ := 7 },
                        objs := [some (Obj.readPtr ownedRead)] } : Sys Nat) :=
  ⟨rfl, rfl, ((move_transfers_acquisition
    ({ sync := { mutex_ := { readers := 1, writer := false }, data_ := 7 },
       objs := [some (Obj.readPtr ownedRead)] } : Sys Nat)
    ⟨7, [Action.rlock], rfl⟩).2.2.1 0 _ rfl).2.1⟩

theorem sync_ext (a b : Sync T) (hm : a.mutex_ = b.mutex_) (hd : a.data_ = b.data_) :
    a = b := by
  cases a; cases b; simp at hm hd; simp [hm, hd]

theorem step_rlock_facts (sys sys1 : Sys T) (hs : sys.step Action.rlock = some sys1) :
    sys.sync.mutex_.writer = false ∧
    sys1.sync.mutex_ = { readers := sys.sync.mutex_.readers + 1, writer := false } ∧
    sys1.sync.data_ = sys.sync.data_ ∧
    sys1.objs = sys.objs ++ [some (Obj.readPtr ownedRead)] := by
  cases hw : sys.sync.mutex_.writer with
  | true =>
    simp [Sys.step, Sync.rlock, ReadPtr.new, ReadLock.new, Mutex.lock_shared, hw] at hs
  | false =>
    simp [Sys.step, Sync.rlock_eq _ hw] at hs
    subst hs
    simp [hw, ownedRead]

theorem step_wlock_facts (sys sys1 : Sys T) (hs : sys.step Action.wlock = some sys1) :
    sys.sync.mutex_ = Mutex.init ∧
    sys1.sync.mutex_ = { readers := 0, writer := true } ∧
    sys1.sync.data_ = sys.sync.data_ ∧
    sys1.objs = sys.objs ++ [some (Obj.writePtr ownedWrite)] := by
  have hfree : sys.sync.mutex_ = Mutex.init := by
    obtain ⟨⟨⟨r, w⟩, d⟩, os⟩ := sys
    cases w with
    | true => simp [Sys.step, Sync.wlock, WritePtr.new, WriteLock.new, Mutex.lock] at hs
    | false =>
      by_cases hr0 : r = 0
      · simp [Mutex.init, hr0]
      · simp [Sys.step, Sync.wlock, WritePtr.new, WriteLock.new, Mutex.lock, hr0] at hs
  simp [Sys.step, Sync.wlock_eq _ hfree] at hs
  subst hs
  simp [hfree, Mutex.init, ownedWrite]

theorem step_leave_facts (sys : Sys T) (i : Nat) (o : Obj) (ho : sys.obj i = some o) :
    ∃ sys3 : Sys T, sys.step (Action.leave i) = some sys3 ∧
      sys3.sync.mutex_ = o.destroy sys.sync.mutex_ ∧
      sys3.sync.data_ = sys.sync.data_ ∧
      sys3.objs = sys.objs.set i none :=
  ⟨⟨⟨o.destroy sys.sync.mutex_, sys.sync.data_⟩, sys.objs.set i none⟩,
    by simp [Sys.step, ho], rfl, rfl, rfl⟩

theorem step_rlock_isSome (sys : Sys T) (hw : sys.sync.mutex_.writer = false) :
    (sys.step Action.rlock).isSome = true := by
  simp [Sys.step, Sync.rlock_eq _ hw]

theorem step_wlock_isSome (sys : Sys T) (hfree : sys.sync.mutex_ = Mutex.init) :
    (sys.step Action.wlock).isSome = true := by
  simp [Sys.step, Sync.wlock_eq _ hfree]

/-- C8, as stated, fails: after `auto a = s.rlock(); auto b = std::move(a);` on a
container holding 7 the handle `a` returned by `rlock()` has not been destroyed and
holds no shared acquisition, and destroying it then releases nothing (the reader count
stays 1, the acquisition being held by `b`). -/
theorem moved_from_read_handle_holds_nothing :
    (Sys.init 7).run [Action.rlock, Action.move 0] =
      some { sync := { mutex_ := { readers := 1, writer := false }, data_ := 7 },
             objs := [some (Obj.readPtr movedFromRead), some (Obj.readPtr ownedRead)] } ∧
    movedFromRead.lock_.owns = false ∧ (Obj.readPtr movedFromRead).shared = 0 ∧
    (Sys.init 7).run [Action.rlock, Action.move 0, Action.leave 0] =
      some { sync := { mutex_ := { readers := 1, writer := false }, data_ := 7 },
             objs := [none, some (Obj.readPtr ownedRead)] } ∧
    ¬ (∀ (as : List (Action Nat)) (sys : Sys Nat),
        (Sys.init 7).run (Action.rlock :: as) = some sys → sys.obj 0 ≠ none →
        ∃ h : ReadPtr, sys.obj 0 = some (Obj.readPtr h) ∧ h.lock_.owns = true) := by
  refine ⟨rfl, rfl, rfl, rfl, ?_⟩
  intro hall
  obtain ⟨h, h1, h2⟩ := hall [Action.move 0] _ rfl (by simp [Sys.obj, slot])
  simp [Sys.obj, slot] at h1
  subst h1
  simp [ReadPtr.move, ReadLock.move] at h2

/-- C8, amended: in a reachable state, a handle returned by `rlock()` (respectively
`wlock()`) holds a shared (respectively exclusive) acquisition from its creation for
as long as it is neither destroyed nor moved from, whatever else the schedule does in
between; while it does, no exclusive acquisition (respectively no other acquisition)
is held; destroying it then releases exactly that one acquisition; acquiring a handle
and letting it go out of scope at once returns the container to the state before the
acquisition, and on a free container an acquirer of either class can then proceed. -/
theorem handle_holds_until_destroyed_or_moved (sys : Sys T) (hr : sys.Reachable) :
    (∀ sys1 : Sys T, sys.step Action.rlock = some sys1 →
      sys1.obj sys.objs.length = some (Obj.readPtr ownedRead) ∧
      sys1.sync.mutex_.readers = sys.sync.mutex_.readers + 1 ∧
      (∀ (as : List (Action T)) (sys2 : Sys T),
        (∀ a ∈ as, a.ends sys.objs.length = false) → sys1.run as = some sys2 →
        sys2.obj sys.objs.length = some (Obj.readPtr ownedRead) ∧
        sys2.exclusiveHeld = 0 ∧
        ∃ sys3 : Sys T, sys2.step (Action.leave sys.objs.length) = some sys3 ∧
          sys3.obj sys.objs.length = none ∧
          sys3.sync.mutex_.readers + 1 = sys2.sync.mutex_.readers ∧
          sys3.sync.mutex_.writer = sys2.sync.mutex_.writer ∧
          sys3.sharedHeld + 1 = sys2.sharedHeld ∧
          sys3.sync.data_ = sys2.sync.data_) ∧
      ∃ sys3 : Sys T, sys1.step (Action.leave sys.objs.length) = some sys3 ∧
        sys3.sync = sys.sync ∧
        (sys.sync.mutex_ = Mutex.init →
          (sys3.step Action.rlock).isSome = true ∧ (sys3.step Action.wlock).isSome = true)) ∧
    (∀ sys1 : Sys T, sys.step Action.wlock = some sys1 →
      sys1.obj sys.objs.length = some (Obj.writePtr ownedWrite) ∧
      sys.sync.mutex_ = Mutex.init ∧
      sys1.sync.mutex_ = { readers := 0, writer := true } ∧
      (∀ (as : List (Action T)) (sys2 : Sys T),
        (∀ a ∈ as, a.ends sys.objs.length = false) → sys1.run as = some sys2 →
        sys2.obj sys.objs.length = some (Obj.writePtr ownedWrite) ∧
        sys2.exclusiveHeld = 1 ∧ sys2.sharedHeld = 0 ∧
        ∃ sys3 : Sys T, sys2.step (Action.leave sys.objs.length) = some sys3 ∧
          sys3.obj sys.objs.length = none ∧
          sys3.sync.mutex_ = Mutex.init ∧
          sys3.sync.data_ = sys2.sync.data_) ∧
      ∃ sys3 : Sys T, sys1.step (Action.leave sys.objs.length) = some sys3 ∧
        sys3.sync = sys.sync ∧
        (sys3.step Action.rlock).isSome = true ∧ (sys3.step Action.wlock).isSome = true) := by
  have hinv := Sys.reachable_inv sys hr
  constructor
  · intro sys1 hs
    have hr1 : sys1.Reachable :=
      Sys.reachable_run sys sys1 [Action.rlock] hr (by simp [Sys.run, hs])
    obtain ⟨hw, hm1, hd1, ho1⟩ := step_rlock_facts sys sys1 hs
    have hobj1 : sys1.obj sys.objs.length = some (Obj.readPtr ownedRead) := by
      simp only [Sys.obj, ho1]; exact slot_append_length _ _
    refine ⟨hobj1, by simp [hm1], ?_, ?_⟩
    · intro as sys2 has hrun
      have hobj2 := Sys.run_keeps sys1 sys2 as _ _ has hobj1 hrun
      have hinv2 := Sys.reachable_inv sys2 (Sys.reachable_run sys1 sys2 as hr1 hrun)
      have hle := slotWeight_le_weight Obj.shared sys2.objs _ _ hobj2
      have hex := held_exclusion sys2 hinv2
      have hsh1 : (Obj.readPtr ownedRead).shared = 1 := rfl
      rw [hsh1] at hle
      have hx0 : sys2.exclusiveHeld = 0 := by
        simp only [Sys.sharedHeld] at hex
        omega
      have hws := weight_set Obj.shared sys2.objs _ _ none hobj2
      rw [hsh1] at hws
      obtain ⟨sys3, hs3, hm3, hd3, ho3⟩ := step_leave_facts sys2 _ _ hobj2
      have hdes : (Obj.readPtr ownedRead).destroy sys2.sync.mutex_ =
          sys2.sync.mutex_.unlock_shared := rfl
      rw [hdes] at hm3
      refine ⟨hobj2, hx0, sys3, hs3, ?_, ?_, ?_, ?_, hd3⟩
      · simp only [Sys.obj, ho3]; exact slot_set_self _ _ _ _ hobj2
      · have := hinv2.1
        simp only [Sys.sharedHeld] at this
        simp [hm3, Mutex.unlock_shared]
        omega
      · simp [hm3, Mutex.unlock_shared]
      · simp only [Sys.sharedHeld, ho3]
        simp [slotWeight] at hws
        omega
    · obtain ⟨sys3, hs3, hm3, hd3, ho3⟩ := step_leave_facts sys1 _ _ hobj1
      have hdes : (Obj.readPtr ownedRead).destroy sys1.sync.mutex_ =
          sys1.sync.mutex_.unlock_shared := rfl
      rw [hdes, hm1] at hm3
      have hm3b : sys3.sync.mutex_ = sys.sync.mutex_ := by
        rw [hm3]
        obtain ⟨⟨⟨r, w⟩, d⟩, os⟩ := sys
        simp at hw
        simp [Mutex.unlock_shared, hw]
      refine ⟨sys3, hs3, sync_ext _ _ hm3b (by rw [hd3, hd1]), ?_⟩
      intro hfree
      exact ⟨step_rlock_isSome sys3 (by rw [hm3b]; exact hw),
        step_wlock_isSome sys3 (by rw [hm3b]; exact hfree)⟩
  · intro sys1 hs
    have hr1 : sys1.Reachable :=
      Sys.reachable_run sys sys1 [Action.wlock] hr (by simp [Sys.run, hs])
    obtain ⟨hfree, hm1, hd1, ho1⟩ := step_wlock_facts sys sys1 hs
    have hobj1 : sys1.obj sys.objs.length = some (Obj.writePtr ownedWrite) := by
      simp only [Sys.obj, ho1]; exact slot_append_length _ _
    refine ⟨hobj1, hfree, hm1, ?_, ?_⟩
    · intro as sys2 has hrun
      have hobj2 := Sys.run_keeps sys1 sys2 as _ _ has hobj1 hrun
      have hinv2 := Sys.reachable_inv sys2 (Sys.reachable_run sys1 sys2 as hr1 hrun)
      have hle := slotWeight_le_weight Obj.exclusive sys2.objs _ _ hobj2
      have hex := held_exclusion sys2 hinv2
      have hsh1 : (Obj.writePtr ownedWrite).exclusive = 1 := rfl
      rw [hsh1] at hle
      have hx1 : sys2.exclusiveHeld = 1 ∧ sys2.sharedHeld = 0 := by
        simp only [Sys.exclusiveHeld] at hex
        simp only [Sys.exclusiveHeld]
        omega
      obtain ⟨sys3, hs3, hm3, hd3, ho3⟩ := step_leave_facts sys2 _ _ hobj2
      have hdes : (Obj.writePtr ownedWrite).destroy sys2.sync.mutex_ =
          sys2.sync.mutex_.unlock := rfl
      rw [hdes] at hm3
      refine ⟨hobj2, hx1.1, hx1.2, sys3, hs3, ?_, ?_, hd3⟩
      · simp only [Sys.obj, ho3]; exact slot_set_self _ _ _ _ hobj2
      · have h1 := hinv2.1
        rw [hx1.2] at h1
        simp [hm3, Mutex.unlock, Mutex.init, h1]
    · obtain ⟨sys3, hs3, hm3, hd3, ho3⟩ := step_leave_facts sys1 _ _ hobj1
      have hdes : (Obj.writePtr ownedWrite).destroy sys1.sync.mutex_ =
          sys1.sync.mutex_.unlock := rfl
      rw [hdes, hm1] at hm3
      have hm3b : sys3.sync.mutex_ = sys.sync.mutex_ := by
        rw [hm3, hfree]; rfl
      exact ⟨sys3, hs3, sync_ext _ _ hm3b (by rw [hd3, hd1]),
        step_rlock_isSome sys3 (by rw [hm3b, hfree]; rfl),
        step_wlock_isSome sys3 (by rw [hm3b]; exact hfree)⟩

/-- Witness for the amended C8: `rlock()` on a fresh container holding 7. -/
theorem handle_holds_until_destroyed_or_moved_witness :
    Sys.step (Sys.init 7) Action.rlock =
      some { sync := { mutex_ := { readers := 1, writer := false }, data_ := 7 },
             objs := [some (Obj.readPtr ownedRead)] } ∧
    Sys.obj ({ sync := { mutex_ := { readers := 1, writer := false }, data_ := 7 },
               objs := [some (Obj.readPtr ownedRead)] } : Sys Nat) 0 =
      some (Obj.readPtr ownedRead) ∧
    Sys.step (Sys.init 7) Action.wlock =
      some { sync := { mutex_ := { readers := 0, writer := true }, data_ := 7 },
             objs := [some (Obj.writePtr ownedWrite)] } ∧
    Sys.obj ({ sync := { mutex_ := { readers := 0, writer := true }, data_ := 7 },
               objs := [some (Obj.writePtr ownedWrite)] } : Sys Nat) 0 =
      some (Obj.writePtr ownedWrite) :=
  ⟨rfl, ((handle_holds_until_destroyed_or_moved (Sys.init 7) ⟨7, [], rfl⟩).1 _ rfl).1,
   rfl, ((handle_holds_until_destroyed_or_moved (Sys.init 7) ⟨7, [], rfl⟩).2 _ rfl).1⟩

end Interleaved

end csp
